import Mathlib

/-!
# Verification development for `_go/edgedb/edgedb.go`

The file `edgedb.go` builds benchmark executors: `RepackWorker` (typed decode
followed by `json.Marshal`) and `JSONWorker` (server-side JSON).  Each executor
is a Go closure over a handful of reused variables.

Embedding.
* Closures are defunctionalised: the captured variables of a closure become a
  record (`PersonVars`, `MovieVars`, `UserVars`, `JSONVars`) and calling the
  closure is a function from the record and the world to an `Outcome`.
* The world (`World`) holds a clock, the number of queries already sent on the
  pool and the trace of library calls made so far.
* `log.Fatal` / `log.Fatalf` terminate the process: they are the `fatal`
  constructor of `Outcome`, carrying the logged message and the world at the
  point of termination.
* The libraries the file calls (`edgedb.ConnectDSN`, `edgedb.ParseUUID`,
  `Pool.QueryOne`, `Pool.QueryOneJSON`, `Pool.Close`, `json.Marshal`, the time
  each of them takes) are not part of the repository; they are the fields of
  `Env`, and every theorem quantifies over `Env`.
* Every library call takes the time `Env` gives it; reading the clock (`time.Now`,
  `time.Since`) takes none. A `time.Duration` is an `Int` of nanoseconds; the saturation of
  `time.Since` beyond 2^63 ns (about 292 years) is out of reach of a run.
* `args.Query` is a Lean `String`; the three tags are ASCII, so matching them on characters
  and on the bytes of the UTF-8 text is the same.
-/

namespace EdgedbBench

/-! ## Data model (lines 16-50) -/

/-- The Go type `edgedb.UUID` (`[16]byte`), kept as the number it encodes. -/
structure UUID where
  val : Nat
  deriving DecidableEq, Repr

/-- The zero value of `edgedb.UUID`. -/
def UUID.zero : UUID := ⟨0⟩

/-- The Go type `float64`, kept as its bit pattern. -/
structure Float64 where
  bits : Nat
  deriving DecidableEq, Repr

mutual
/-- The Go struct `User` (lines 16-21). -/
inductive User : Type
  | mk (ID : UUID) (Name : String) (Image : String) (LatestReviews : List Review)
/-- The Go struct `Movie` (lines 23-33). -/
inductive Movie : Type
  | mk (ID : UUID) (Image : String) (Title : String) (Year : Int) (Description : String)
      (AvgRating : Float64) (Directors : List Person) (Cast : List Person)
      (Reviews : List Review)
/-- The Go struct `Person` (lines 35-42). -/
inductive Person : Type
  | mk (ID : UUID) (FullName : String) (Image : String) (Bio : String)
      (ActedIn : List Movie) (Directed : List Movie)
/-- The Go struct `Review` (lines 44-50). -/
inductive Review : Type
  | mk (ID : UUID) (Body : String) (Rating : Int) (Movie : Movie) (Author : User)
end

/-- The zero value of `User` (`var user User`). -/
def User.zero : User := User.mk UUID.zero "" "" []

/-- The zero value of `Movie` (`var movie Movie`). -/
def Movie.zero : Movie := Movie.mk UUID.zero "" "" 0 "" ⟨0⟩ [] [] []

/-- The zero value of `Person` (`var person Person`). -/
def Person.zero : Person := Person.mk UUID.zero "" "" "" [] []

/-! ## World, events and outcomes -/

/-- A Go `error` value, kept as its message. -/
abbrev Err := String

/-- The map `params` (`map[string]interface{}`); the only values ever stored are UUIDs. -/
abbrev Params := List (String × UUID)

/-- The Go statement `params[k] = v`: overwrite the slot of `k`, or add it. -/
def Params.set : Params → String → UUID → Params
  | [], k, v => [(k, v)]
  | (k', v') :: rest, k, v =>
    if k' = k then (k, v) :: rest else (k', v') :: Params.set rest k v

/-- One row as the server sends it. -/
abbrev Row := String

/-- The library calls the file makes, in the order they are made. -/
inductive Event
  | connectDSN (dsn : String)
  | parseUUID (id : String)
  | timeNow
  | queryOne (query : String) (params : Params)
  | queryOneJSON (query : String) (params : Params)
  | jsonMarshal
  | timeSince
  | poolClose
  deriving DecidableEq, Repr

/-- The state outside the closures. -/
structure World where
  /-- Wall clock, in nanoseconds. -/
  clock : Nat
  /-- Number of queries already sent on the pool. -/
  issued : Nat
  /-- Library calls made so far, oldest first. -/
  trace : List Event
  deriving DecidableEq, Repr

/-- Record a library call that takes `cost` nanoseconds. -/
def World.emit (w : World) (e : Event) (cost : Nat) : World :=
  { w with clock := w.clock + cost, trace := w.trace ++ [e] }

/-- Record a query sent on the pool that takes `cost` nanoseconds. -/
def World.emitQuery (w : World) (e : Event) (cost : Nat) : World :=
  { clock := w.clock + cost, issued := w.issued + 1, trace := w.trace ++ [e] }

/-- Either the Go function returned `a`, or `log.Fatal` ended the process. -/
inductive Outcome (α : Type)
  | ret (a : α) (w : World)
  | fatal (msg : Err) (w : World)

/-- The world in which the outcome was reached. -/
def Outcome.world {α : Type} : Outcome α → World
  | .ret _ w => w
  | .fatal _ w => w

/-- Whether the Go function returned to its caller. -/
def Outcome.returned {α : Type} : Outcome α → Bool
  | .ret _ _ => true
  | .fatal _ _ => false

/-- The returned value, if any. -/
def Outcome.value? {α : Type} : Outcome α → Option α
  | .ret a _ => some a
  | .fatal _ _ => none

/-- The message logged by `log.Fatal`, if the process was ended. -/
def Outcome.fatalMsg? {α : Type} : Outcome α → Option Err
  | .ret _ _ => none
  | .fatal m _ => some m

/-- Change the returned value. -/
def Outcome.map {α β : Type} (f : α → β) : Outcome α → Outcome β
  | .ret a w => .ret (f a) w
  | .fatal m w => .fatal m w

/-- How the driver fills a decode target of type `T` and how `json.Marshal` serialises it. -/
structure Codec (T : Type) where
  /-- The decode step of `QueryOne(ctx, query, &target, params)`: the target after the
  call and the error returned. -/
  decode : Row → T → T × Option Err
  /-- The Go call `json.Marshal(target)`: bytes and error. -/
  marshal : T → String × Option Err
  /-- Time `json.Marshal(target)` takes. -/
  marshalCost : T → Nat

/-- The libraries called by the file. -/
structure Env where
  /-- The error of `edgedb.ConnectDSN(ctx, dsn, edgedb.Options{})`. -/
  connectDSN : String → Option Err
  connectCost : Nat
  /-- The Go call `edgedb.ParseUUID(id)`: value and error. -/
  parseUUID : String → UUID × Option Err
  parseCost : String → Nat
  /-- The answer of the server to the `n`-th query on the pool (`n` queries were sent
  before it): exactly one row, or the error of the round trip. -/
  respond : Nat → String → Params → Except Err Row
  queryCost : Nat → String → Params → Nat
  person : Codec Person
  movie : Codec Movie
  user : Codec User
  /-- The write of `QueryOneJSON(ctx, query, &rsp, params)` into `rsp`. -/
  decodeJSON : Row → String → String × Option Err
  /-- The error of `pool.Close()`. -/
  closePool : Option Err
  closeCost : Nat

/-- The Go call `pool.QueryOne(ctx, query, &target, params)`: the round trip, then the decode
into the target. The target after the call and the error returned. -/
def Env.queryOne {T : Type} (env : Env) (c : Codec T) (n : Nat) (query : String)
    (params : Params) (target : T) : T × Option Err :=
  match env.respond n query params with
  | .error e => (target, some e)
  | .ok row => c.decode row target

/-- The Go call `pool.QueryOneJSON(ctx, query, &rsp, params)`. -/
def Env.queryOneJSON (env : Env) (n : Nat) (query : String) (params : Params)
    (rsp : String) : String × Option Err :=
  match env.respond n query params with
  | .error e => (rsp, some e)
  | .ok row => env.decodeJSON row rsp

/-- The Go struct `cli.Args`; only `Query` is read. -/
structure Args where
  Query : String
  deriving DecidableEq, Repr

/-- The Go type `*edgedb.Pool`. -/
structure Pool where
  dsn : String
  deriving DecidableEq, Repr

/-! ## `regexp.MustCompile("Person|Movie|User").FindString` (lines 59-60) -/

/-- The alternatives of the pattern, in the order they are written. -/
def tags : List (List Char) := ["Person".data, "Movie".data, "User".data]

/-- The first alternative, in pattern order, that matches at the start of `s`. -/
def matchAt (alts : List (List Char)) (s : List Char) : Option (List Char) :=
  alts.find? (fun a => a.isPrefixOf s)

/-- The leftmost match of an alternation of literals in `s`; the empty text when there is
none (`Regexp.FindString`). -/
def findString (alts : List (List Char)) : List Char → List Char
  | [] => (matchAt alts []).getD []
  | c :: cs =>
    match matchAt alts (c :: cs) with
    | some a => a
    | none => findString alts cs

/-- The verb `%q` of `log.Fatalf` on a text without special characters. -/
def quote (s : String) : String := "\"" ++ s ++ "\""

/-! ## The structured executors (lines 83-184) -/

/-- Variables captured by the closure that `execPerson` returns (lines 84-93). -/
structure PersonVars where
  params : Params
  person : Person
  start : Nat
  duration : Int
  err : Option Err
  bts : String

/-- The captured variables when `execPerson` returns: an empty map and zero values. -/
def PersonVars.init : PersonVars := ⟨[], Person.zero, 0, 0, none, ""⟩

/-- The closure returned by `execPerson(pool, args)` (lines 95-114), called on `id`. -/
def execPerson.body (env : Env) (_pool : Pool) (args : Args) (v : PersonVars) (id : String)
    (w : World) : Outcome ((Int × String) × PersonVars) :=
  -- params["id"], err = edgedb.ParseUUID(id)
  let w1 := w.emit (.parseUUID id) (env.parseCost id)
  let v1 : PersonVars :=
    { v with params := v.params.set "id" (env.parseUUID id).1, err := (env.parseUUID id).2 }
  match v1.err with
  | some e => .fatal e w1
  | none =>
    -- start = time.Now()
    let w2 := w1.emit .timeNow 0
    let v2 : PersonVars := { v1 with start := w2.clock }
    -- err = pool.QueryOne(ctx, args.Query, &person, params)
    let q := env.queryOne env.person w2.issued args.Query v2.params v2.person
    let w3 := w2.emitQuery (.queryOne args.Query v2.params)
      (env.queryCost w2.issued args.Query v2.params)
    let v3 : PersonVars := { v2 with person := q.1, err := q.2 }
    match v3.err with
    | some e => .fatal e w3
    | none =>
      -- bts, err = json.Marshal(person)
      let m := env.person.marshal v3.person
      let w4 := w3.emit .jsonMarshal (env.person.marshalCost v3.person)
      let v4 : PersonVars := { v3 with bts := m.1, err := m.2 }
      match v4.err with
      | some e => .fatal e w4
      | none =>
        -- duration = time.Since(start)
        let w5 := w4.emit .timeSince 0
        let v5 : PersonVars := { v4 with duration := (w5.clock : Int) - (v4.start : Int) }
        -- return duration, string(bts)
        .ret ((v5.duration, v5.bts), v5) w5

/-- Variables captured by the closure that `execMovie` returns (lines 118-127). -/
structure MovieVars where
  params : Params
  movie : Movie
  start : Nat
  duration : Int
  err : Option Err
  bts : String

/-- The captured variables when `execMovie` returns: an empty map and zero values. -/
def MovieVars.init : MovieVars := ⟨[], Movie.zero, 0, 0, none, ""⟩

/-- The closure returned by `execMovie(pool, args)` (lines 129-148), called on `id`. -/
def execMovie.body (env : Env) (_pool : Pool) (args : Args) (v : MovieVars) (id : String)
    (w : World) : Outcome ((Int × String) × MovieVars) :=
  -- params["id"], err = edgedb.ParseUUID(id)
  let w1 := w.emit (.parseUUID id) (env.parseCost id)
  let v1 : MovieVars :=
    { v with params := v.params.set "id" (env.parseUUID id).1, err := (env.parseUUID id).2 }
  match v1.err with
  | some e => .fatal e w1
  | none =>
    -- start = time.Now()
    let w2 := w1.emit .timeNow 0
    let v2 : MovieVars := { v1 with start := w2.clock }
    -- err = pool.QueryOne(ctx, args.Query, &movie, params)
    let q := env.queryOne env.movie w2.issued args.Query v2.params v2.movie
    let w3 := w2.emitQuery (.queryOne args.Query v2.params)
      (env.queryCost w2.issued args.Query v2.params)
    let v3 : MovieVars := { v2 with movie := q.1, err := q.2 }
    match v3.err with
    | some e => .fatal e w3
    | none =>
      -- bts, err = json.Marshal(movie)
      let m := env.movie.marshal v3.movie
      let w4 := w3.emit .jsonMarshal (env.movie.marshalCost v3.movie)
      let v4 : MovieVars := { v3 with bts := m.1, err := m.2 }
      match v4.err with
      | some e => .fatal e w4
      | none =>
        -- duration = time.Since(start)
        let w5 := w4.emit .timeSince 0
        let v5 : MovieVars := { v4 with duration := (w5.clock : Int) - (v4.start : Int) }
        -- return duration, string(bts)
        .ret ((v5.duration, v5.bts), v5) w5

/-- Variables captured by the closure that `execUser` returns (lines 153-162). -/
structure UserVars where
  params : Params
  user : User
  start : Nat
  duration : Int
  err : Option Err
  bts : String

/-- The captured variables when `execUser` returns: an empty map and zero values. -/
def UserVars.init : UserVars := ⟨[], User.zero, 0, 0, none, ""⟩

/-- The closure returned by `execUser(pool, args)` (lines 164-183), called on `id`. -/
def execUser.body (env : Env) (_pool : Pool) (args : Args) (v : UserVars) (id : String)
    (w : World) : Outcome ((Int × String) × UserVars) :=
  -- params["id"], err = edgedb.ParseUUID(id)
  let w1 := w.emit (.parseUUID id) (env.parseCost id)
  let v1 : UserVars :=
    { v with params := v.params.set "id" (env.parseUUID id).1, err := (env.parseUUID id).2 }
  match v1.err with
  | some e => .fatal e w1
  | none =>
    -- start = time.Now()
    let w2 := w1.emit .timeNow 0
    let v2 : UserVars := { v1 with start := w2.clock }
    -- err = pool.QueryOne(ctx, args.Query, &user, params)
    let q := env.queryOne env.user w2.issued args.Query v2.params v2.user
    let w3 := w2.emitQuery (.queryOne args.Query v2.params)
      (env.queryCost w2.issued args.Query v2.params)
    let v3 : UserVars := { v2 with user := q.1, err := q.2 }
    match v3.err with
    | some e => .fatal e w3
    | none =>
      -- bts, err = json.Marshal(user)
      let m := env.user.marshal v3.user
      let w4 := w3.emit .jsonMarshal (env.user.marshalCost v3.user)
      let v4 : UserVars := { v3 with bts := m.1, err := m.2 }
      match v4.err with
      | some e => .fatal e w4
      | none =>
        -- duration = time.Since(start)
        let w5 := w4.emit .timeSince 0
        let v5 : UserVars := { v4 with duration := (w5.clock : Int) - (v4.start : Int) }
        -- return duration, string(bts)
        .ret ((v5.duration, v5.bts), v5) w5

/-! ## The executor of `JSONWorker` (lines 193-216) -/

/-- Variables captured by the closure `exec` of `JSONWorker`: `err` of line 188 and the
variables of lines 193-199. -/
structure JSONVars where
  err : Option Err
  params : Params
  rsp : String
  start : Nat
  duration : Int

/-- The captured variables when `JSONWorker` returns: the connection succeeded, so `err` is
nil, the map is empty and the rest are zero values. -/
def JSONVars.init : JSONVars := ⟨none, [], "", 0, 0⟩

/-- The closure `exec` of `JSONWorker` (lines 201-216), called on `id`. -/
def JSONWorker.body (env : Env) (_pool : Pool) (args : Args) (v : JSONVars) (id : String)
    (w : World) : Outcome ((Int × String) × JSONVars) :=
  -- params["id"], err = edgedb.ParseUUID(id)
  let w1 := w.emit (.parseUUID id) (env.parseCost id)
  let v1 : JSONVars :=
    { v with params := v.params.set "id" (env.parseUUID id).1, err := (env.parseUUID id).2 }
  match v1.err with
  | some e => .fatal e w1
  | none =>
    -- start = time.Now()
    let w2 := w1.emit .timeNow 0
    let v2 : JSONVars := { v1 with start := w2.clock }
    -- err = pool.QueryOneJSON(ctx, args.Query, &rsp, params)
    let q := env.queryOneJSON w2.issued args.Query v2.params v2.rsp
    let w3 := w2.emitQuery (.queryOneJSON args.Query v2.params)
      (env.queryCost w2.issued args.Query v2.params)
    let v3 : JSONVars := { v2 with rsp := q.1, err := q.2 }
    -- duration = time.Since(start)
    let w4 := w3.emit .timeSince 0
    let v4 : JSONVars := { v3 with duration := (w4.clock : Int) - (v3.start : Int) }
    match v4.err with
    | some e => .fatal e w4
    | none =>
      -- return duration, string(rsp)
      .ret ((v4.duration, v4.rsp), v4) w4

/-! ## Executors and teardown as values (`bench.Exec`, `bench.Close`) -/

/-- A value of type `bench.Exec` built by this file: which closure it is, with the pool, the
arguments and the variables it captured. -/
inductive Exec
  | person (pool : Pool) (args : Args) (v : PersonVars)
  | movie (pool : Pool) (args : Args) (v : MovieVars)
  | user (pool : Pool) (args : Args) (v : UserVars)
  | json (pool : Pool) (args : Args) (v : JSONVars)

/-- The Go function `execPerson` (line 83): the closure with fresh variables. -/
def execPerson (pool : Pool) (args : Args) : Exec := .person pool args PersonVars.init

/-- The Go function `execMovie` (line 117): the closure with fresh variables. -/
def execMovie (pool : Pool) (args : Args) : Exec := .movie pool args MovieVars.init

/-- The Go function `execUser` (line 151): the closure with fresh variables. -/
def execUser (pool : Pool) (args : Args) : Exec := .user pool args UserVars.init

/-- Calling a `bench.Exec` on an identifier: the pair returned and the closure afterwards. -/
def Exec.call (env : Env) : Exec → String → World → Outcome ((Int × String) × Exec)
  | .person pool args v, id, w =>
    (execPerson.body env pool args v id w).map (fun r => (r.1, .person pool args r.2))
  | .movie pool args v, id, w =>
    (execMovie.body env pool args v id w).map (fun r => (r.1, .movie pool args r.2))
  | .user pool args v, id, w =>
    (execUser.body env pool args v id w).map (fun r => (r.1, .user pool args r.2))
  | .json pool args v, id, w =>
    (JSONWorker.body env pool args v id w).map (fun r => (r.1, .json pool args r.2))

/-- A value of type `bench.Close` built by this file (lines 73-78 and 218-223). -/
structure Close where
  pool : Pool

/-- Calling the teardown closure: `pool.Close()`, fatal on error. -/
def Close.call (env : Env) (_c : Close) (w : World) : Outcome Unit :=
  -- err := pool.Close()
  let w1 := w.emit .poolClose env.closeCost
  match env.closePool with
  | some e => .fatal e w1
  | none => .ret () w1

/-! ## The workers (lines 52-81 and 186-226) -/

/-- The Go function `RepackWorker` (lines 52-81). -/
def RepackWorker (env : Env) (args : Args) (w : World) : Outcome (Exec × Close) :=
  -- pool, err := edgedb.ConnectDSN(ctx, "edgedb_bench", edgedb.Options{})
  let w1 := w.emit (.connectDSN "edgedb_bench") env.connectCost
  match env.connectDSN "edgedb_bench" with
  | some e => .fatal e w1
  | none =>
    let pool : Pool := ⟨"edgedb_bench"⟩
    -- queryType := regex.FindString(args.Query)
    let queryType : String := String.mk (findString tags args.Query.data)
    -- switch queryType
    if queryType = "Person" then .ret (execPerson pool args, ⟨pool⟩) w1
    else if queryType = "Movie" then .ret (execMovie pool args, ⟨pool⟩) w1
    else if queryType = "User" then .ret (execUser pool args, ⟨pool⟩) w1
    else .fatal ("unknown query type " ++ quote queryType) w1

/-- The Go function `JSONWorker` (lines 186-226). -/
def JSONWorker (env : Env) (args : Args) (w : World) : Outcome (Exec × Close) :=
  -- pool, err := edgedb.ConnectDSN(ctx, "edgedb_bench", edgedb.Options{})
  let w1 := w.emit (.connectDSN "edgedb_bench") env.connectCost
  match env.connectDSN "edgedb_bench" with
  | some e => .fatal e w1
  | none =>
    let pool : Pool := ⟨"edgedb_bench"⟩
    .ret (.json pool args JSONVars.init, ⟨pool⟩) w1

/-! ## Sequential use of one executor -/

/-- Call one executor on the identifiers in turn, each call on the closure the previous call
left behind; stops at the first fatal call. -/
def Exec.runAll (env : Env) : Exec → List String → World →
    Outcome (List (Int × String) × Exec)
  | e, [], w => .ret ([], e) w
  | e, id :: ids, w =>
    match e.call env id w with
    | .fatal m w1 => .fatal m w1
    | .ret (r, e1) w1 =>
      match Exec.runAll env e1 ids w1 with
      | .fatal m w2 => .fatal m w2
      | .ret (rs, e2) w2 => .ret (r :: rs, e2) w2

/-- A whole run: build the worker, call the executor on every identifier, tear down. -/
def session (worker : Env → Args → World → Outcome (Exec × Close)) (env : Env) (args : Args)
    (ids : List String) (w : World) : Outcome (List (Int × String)) :=
  match worker env args w with
  | .fatal m w1 => .fatal m w1
  | .ret (exec, close) w1 =>
    match exec.runAll env ids w1 with
    | .fatal m w2 => .fatal m w2
    | .ret (rs, _) w2 => (close.call env w2).map (fun _ => rs)

/-! ## Notions used in the statements -/

/-- The query text contains `tag` as an exact substring. -/
def containsTag (query tag : String) : Prop := tag.data <:+: query.data

/-- The tag `t` occurs in `q` at an index before which no tag occurs. -/
def leftmostTag (q t : List Char) : Prop :=
  ∃ i, t <+: q.drop i ∧ ∀ j, j < i → ∀ b ∈ tags, ¬ b <+: q.drop j

/-- The pool `RepackWorker` and `JSONWorker` work on. -/
def benchPool : Pool := ⟨"edgedb_bench"⟩

/-- The world right after the call of `edgedb.ConnectDSN`. -/
def World.connected (env : Env) (w : World) : World :=
  w.emit (.connectDSN "edgedb_bench") env.connectCost

/-- No two alternatives match at the same place. -/
def Exclusive (alts : List (List Char)) : Prop :=
  ∀ a ∈ alts, ∀ b ∈ alts, ∀ s : List Char, a <+: s → b <+: s → a = b

/-- The library calls made while reaching outcome `o` from world `w`. -/
def emitted {α : Type} (w : World) (o : Outcome α) : List Event :=
  o.world.trace.drop w.trace.length

/-- The event is a query sent on the pool. -/
def Event.isQuery : Event → Bool
  | .queryOne _ _ => true
  | .queryOneJSON _ _ => true
  | _ => false

/-- The event opens the connection. -/
def Event.isConnect : Event → Bool
  | .connectDSN _ => true
  | _ => false

/-- The event closes the connection. -/
def Event.isClose : Event → Bool
  | .poolClose => true
  | _ => false

/-- The parameter map of a query event. -/
def Event.params? : Event → Option Params
  | .queryOne _ ps => some ps
  | .queryOneJSON _ ps => some ps
  | _ => none

/-- The query families of the glossary. -/
inductive Family
  | person
  | movie
  | user
  | json
  deriving DecidableEq, Repr

/-- The family of an executor. -/
def Exec.family : Exec → Family
  | .person _ _ _ => .person
  | .movie _ _ _ => .movie
  | .user _ _ _ => .user
  | .json _ _ _ => .json

/-- The arguments an executor was built with. -/
def Exec.args : Exec → Args
  | .person _ a _ => a
  | .movie _ a _ => a
  | .user _ a _ => a
  | .json _ a _ => a

/-- The parameter map an executor holds. -/
def Exec.params : Exec → Params
  | .person _ _ v => v.params
  | .movie _ _ v => v.params
  | .user _ _ v => v.params
  | .json _ _ v => v.params

/-- The query event an executor sends for `id`. -/
def Exec.queryEvent (env : Env) (e : Exec) (id : String) : Event :=
  match e.family with
  | .json => .queryOneJSON e.args.Query [("id", (env.parseUUID id).1)]
  | _ => .queryOne e.args.Query [("id", (env.parseUUID id).1)]

/-- The error of the round trip and decode of the query an executor sends for `id`. -/
def Exec.queryErr (env : Env) : Exec → String → World → Option Err
  | .person _ args v, id, w =>
    (env.queryOne env.person w.issued args.Query
      (v.params.set "id" (env.parseUUID id).1) v.person).2
  | .movie _ args v, id, w =>
    (env.queryOne env.movie w.issued args.Query
      (v.params.set "id" (env.parseUUID id).1) v.movie).2
  | .user _ args v, id, w =>
    (env.queryOne env.user w.issued args.Query
      (v.params.set "id" (env.parseUUID id).1) v.user).2
  | .json _ args v, id, w =>
    (env.queryOneJSON w.issued args.Query (v.params.set "id" (env.parseUUID id).1) v.rsp).2

/-- The error of marshaling the decoded target; the executor of `JSONWorker` does not
marshal. -/
def Exec.marshalErr (env : Env) : Exec → String → World → Option Err
  | .person _ args v, id, w =>
    (env.person.marshal (env.queryOne env.person w.issued args.Query
      (v.params.set "id" (env.parseUUID id).1) v.person).1).2
  | .movie _ args v, id, w =>
    (env.movie.marshal (env.queryOne env.movie w.issued args.Query
      (v.params.set "id" (env.parseUUID id).1) v.movie).1).2
  | .user _ args v, id, w =>
    (env.user.marshal (env.queryOne env.user w.issued args.Query
      (v.params.set "id" (env.parseUUID id).1) v.user).1).2
  | .json _ _ _, _, _ => none

/-- Parsing, the query with its decode and (structured executors) marshaling all succeed. -/
def Exec.succeeds (env : Env) (e : Exec) (id : String) (w : World) : Prop :=
  (env.parseUUID id).2 = none ∧ e.queryErr env id w = none ∧ e.marshalErr env id w = none

/-- The serialisation of one row alone: the row decoded into a fresh target, marshaled. -/
def Family.payloadOf (env : Env) : Family → Row → String
  | .person, r => (env.person.marshal (env.person.decode r Person.zero).1).1
  | .movie, r => (env.movie.marshal (env.movie.decode r Movie.zero).1).1
  | .user, r => (env.user.marshal (env.user.decode r User.zero).1).1
  | .json, r => (env.decodeJSON r "").1

/-- The decode of the driver writes the whole target: what it leaves does not depend on
what the target held before. -/
def Env.overwrites (env : Env) : Prop :=
  (∀ r t t', env.person.decode r t = env.person.decode r t') ∧
  (∀ r t t', env.movie.decode r t = env.movie.decode r t') ∧
  (∀ r t t', env.user.decode r t = env.user.decode r t') ∧
  (∀ r s s', env.decodeJSON r s = env.decodeJSON r s')

/-- Two environments decode, marshal and parse alike; their servers may answer differently. -/
def Env.sameCodecs (env1 env2 : Env) : Prop :=
  env1.parseUUID = env2.parseUUID ∧ env1.person = env2.person ∧ env1.movie = env2.movie ∧
  env1.user = env2.user ∧ env1.decodeJSON = env2.decodeJSON

/-! ## The generic executor of the design notes -/

/-- Variables of the generic executor over a decode target of type `T`. -/
structure Vars (T : Type) where
  params : Params
  target : T
  start : Nat
  duration : Int
  err : Option Err
  bts : String

/-- One generic executor parameterised by the decode target: parse, start the timer, one
`QueryOne`, marshal, stop the timer; any error is fatal. -/
def execGeneric {T : Type} (env : Env) (c : Codec T) (args : Args) (v : Vars T) (id : String)
    (w : World) : Outcome ((Int × String) × Vars T) :=
  let parsed := env.parseUUID id
  let params := v.params.set "id" parsed.1
  let afterParse := w.emit (.parseUUID id) (env.parseCost id)
  match parsed.2 with
  | some e => .fatal e afterParse
  | none =>
    let started := afterParse.emit .timeNow 0
    let answer := env.queryOne c started.issued args.Query params v.target
    let afterQuery := started.emitQuery (.queryOne args.Query params)
      (env.queryCost started.issued args.Query params)
    match answer.2 with
    | some e => .fatal e afterQuery
    | none =>
      let bytes := c.marshal answer.1
      let afterMarshal := afterQuery.emit .jsonMarshal (c.marshalCost answer.1)
      match bytes.2 with
      | some e => .fatal e afterMarshal
      | none =>
        let stopped := afterMarshal.emit .timeSince 0
        let elapsed : Int := (stopped.clock : Int) - (started.clock : Int)
        .ret ((elapsed, bytes.1),
          ⟨params, answer.1, started.clock, elapsed, none, bytes.1⟩) stopped

/-- The variables of the `execPerson` closure as variables of the generic executor. -/
def PersonVars.toVars (v : PersonVars) : Vars Person :=
  ⟨v.params, v.person, v.start, v.duration, v.err, v.bts⟩

/-- The variables of the `execMovie` closure as variables of the generic executor. -/
def MovieVars.toVars (v : MovieVars) : Vars Movie :=
  ⟨v.params, v.movie, v.start, v.duration, v.err, v.bts⟩

/-- The variables of the `execUser` closure as variables of the generic executor. -/
def UserVars.toVars (v : UserVars) : Vars User :=
  ⟨v.params, v.user, v.start, v.duration, v.err, v.bts⟩

/-! ## A concrete environment -/

/-- A driver that accepts identifiers of 36 characters, answers every query with one row and
decodes the row into the name field. -/
def demoEnv : Env where
  connectDSN := fun _ => none
  connectCost := 7
  parseUUID := fun id =>
    if id.length = 36 then (⟨id.length⟩, none) else (UUID.zero, some "edgedb: invalid UUID")
  parseCost := fun _ => 1
  respond := fun n _ _ => .ok (if n = 0 then "first" else "later")
  queryCost := fun _ _ _ => 10
  person := ⟨fun r _ => (Person.mk UUID.zero r "" "" [] [], none),
    fun p => match p with | .mk _ n _ _ _ _ => (n, none), fun _ => 3⟩
  movie := ⟨fun r _ => (Movie.mk UUID.zero "" r 0 "" ⟨0⟩ [] [] [], none),
    fun p => match p with | .mk _ _ t _ _ _ _ _ _ => (t, none), fun _ => 3⟩
  user := ⟨fun r _ => (User.mk UUID.zero r "" [], none),
    fun p => match p with | .mk _ n _ _ => (n, none), fun _ => 3⟩
  decodeJSON := fun r _ => (r, none)
  closePool := none
  closeCost := 2

/-- The environment `demoEnv` with a serialiser of `Person` that takes `c` nanoseconds. -/
def demoEnvMarshalCost (c : Nat) : Env :=
  { demoEnv with person := { demoEnv.person with marshalCost := fun _ => c } }

/-- A well-formed identifier. -/
def demoId : String := "11111111-1111-1111-1111-111111111111"

/-- The world at start-up. -/
def World.init : World := ⟨0, 0, []⟩

/-- The library calls one invocation makes, by how far it gets. -/
def Exec.expectedTrace (env : Env) (e : Exec) (id : String) (w : World) : List Event :=
  let ps := e.params.set "id" (env.parseUUID id).1
  match e.family with
  | .json =>
    match (env.parseUUID id).2 with
    | some _ => [.parseUUID id]
    | none => [.parseUUID id, .timeNow, .queryOneJSON e.args.Query ps, .timeSince]
  | _ =>
    match (env.parseUUID id).2, e.queryErr env id w, e.marshalErr env id w with
    | some _, _, _ => [.parseUUID id]
    | none, some _, _ => [.parseUUID id, .timeNow, .queryOne e.args.Query ps]
    | none, none, some _ => [.parseUUID id, .timeNow, .queryOne e.args.Query ps, .jsonMarshal]
    | none, none, none =>
      [.parseUUID id, .timeNow, .queryOne e.args.Query ps, .jsonMarshal, .timeSince]

/-- Time the query of one invocation takes. -/
def Exec.queryTime (env : Env) (e : Exec) (id : String) (w : World) : Nat :=
  env.queryCost w.issued e.args.Query (e.params.set "id" (env.parseUUID id).1)

/-- Time `json.Marshal` takes on the target the query of one invocation decoded; the
executor of `JSONWorker` does not marshal. -/
def Exec.marshalTime (env : Env) : Exec → String → World → Nat
  | .person _ args v, id, w =>
    env.person.marshalCost (env.queryOne env.person w.issued args.Query
      (v.params.set "id" (env.parseUUID id).1) v.person).1
  | .movie _ args v, id, w =>
    env.movie.marshalCost (env.queryOne env.movie w.issued args.Query
      (v.params.set "id" (env.parseUUID id).1) v.movie).1
  | .user _ args v, id, w =>
    env.user.marshalCost (env.queryOne env.user w.issued args.Query
      (v.params.set "id" (env.parseUUID id).1) v.user).1
  | .json _ _ _, _, _ => 0

/-- The library calls of a structured invocation that returns. -/
def structuredTrace (query : String) (params : Params) (id : String) : List Event :=
  [.parseUUID id, .timeNow, .queryOne query params, .jsonMarshal, .timeSince]

instance (q t : String) : Decidable (containsTag q t) := by
  unfold containsTag
  infer_instance

/-- The query text contains none of the three tags. -/
def noTag (q : String) : Prop :=
  ¬ (containsTag q "Person" ∨ containsTag q "Movie" ∨ containsTag q "User")

instance (q : String) : Decidable (noTag q) := by
  unfold noTag
  infer_instance

/-- The parameter map is empty or holds the one key `id`. -/
def Params.ok (ps : Params) : Prop := ps = [] ∨ ∃ u, ps = [("id", u)]

/-- The payload one row alone gives: the row decoded into a fresh target and marshaled, when
both steps succeed. -/
def Family.result? (env : Env) : Family → Row → Option String
  | .person, r =>
    match (env.person.decode r Person.zero).2,
      (env.person.marshal (env.person.decode r Person.zero).1).2 with
    | none, none => some (env.person.marshal (env.person.decode r Person.zero).1).1
    | _, _ => none
  | .movie, r =>
    match (env.movie.decode r Movie.zero).2,
      (env.movie.marshal (env.movie.decode r Movie.zero).1).2 with
    | none, none => some (env.movie.marshal (env.movie.decode r Movie.zero).1).1
    | _, _ => none
  | .user, r =>
    match (env.user.decode r User.zero).2,
      (env.user.marshal (env.user.decode r User.zero).1).2 with
    | none, none => some (env.user.marshal (env.user.decode r User.zero).1).1
    | _, _ => none
  | .json, r =>
    match (env.decodeJSON r "").2 with
    | none => some (env.decodeJSON r "").1
    | some _ => none

/-- The payload of a call as a function of that call alone: its identifier and the answer
of the server to its query (the `n`-th on the pool). -/
def Family.payload? (env : Env) (f : Family) (query : String) (id : String) (n : Nat) :
    Option String :=
  match (env.parseUUID id).2 with
  | some _ => none
  | none =>
    match env.respond n query [("id", (env.parseUUID id).1)] with
    | .error _ => none
    | .ok row => f.result? env row

/-- The environment `demoEnv` with a server whose first answer is another row. -/
def demoEnvOther : Env :=
  { demoEnv with respond := fun n _ _ => .ok (if n = 0 then "other" else "later") }

/-- Another well-formed identifier. -/
def demoId2 : String := "22222222-2222-2222-2222-222222222222"

/-! ## Facts about `findString` -/

theorem matchAt_some {alts : List (List Char)} {s a : List Char}
    (h : matchAt alts s = some a) : a ∈ alts ∧ a <+: s := by
  unfold matchAt at h
  have hp := List.find?_some h
  exact ⟨List.mem_of_find?_eq_some h, List.isPrefixOf_iff_prefix.mp hp⟩

theorem matchAt_none {alts : List (List Char)} {s : List Char}
    (h : matchAt alts s = none) : ∀ a ∈ alts, ¬ a <+: s := by
  unfold matchAt at h
  intro a ha hp
  have := List.find?_eq_none.mp h a ha
  exact this (List.isPrefixOf_iff_prefix.mpr hp)

theorem findString_leftmost {alts : List (List Char)} (hex : Exclusive alts) :
    ∀ (s : List Char) (i : Nat) (t : List Char), t ∈ alts → t <+: s.drop i →
      (∀ j, j < i → ∀ b ∈ alts, ¬ b <+: s.drop j) → findString alts s = t := by
  intro s
  induction s with
  | nil =>
    intro i t _ hp _
    have ht : t = [] := by simpa using hp
    subst ht
    unfold findString
    cases hm : matchAt alts [] with
    | none => rfl
    | some a =>
      have := (matchAt_some hm).2
      simpa using this
  | cons c cs ih =>
    intro i t ht hp hmin
    unfold findString
    cases i with
    | zero =>
      cases hm : matchAt alts (c :: cs) with
      | none => exact absurd (by simpa using hp) (matchAt_none hm t ht)
      | some a =>
        have ha := matchAt_some hm
        exact hex a ha.1 t ht (c :: cs) ha.2 (by simpa using hp)
    | succ i =>
      cases hm : matchAt alts (c :: cs) with
      | none =>
        refine ih i t ht (by simpa using hp) ?_
        intro j hj b hb
        have := hmin (j + 1) (by omega) b hb
        simpa using this
      | some a =>
        have ha := matchAt_some hm
        exact absurd (by simpa using ha.2) (hmin 0 (by omega) a ha.1)

theorem findString_no_match {alts : List (List Char)} :
    ∀ s : List Char, (∀ a ∈ alts, ¬ a <:+: s) → findString alts s = [] := by
  intro s
  induction s with
  | nil =>
    intro h
    unfold findString
    cases hm : matchAt alts [] with
    | none => rfl
    | some a =>
      have ha := matchAt_some hm
      exact absurd ha.2.isInfix (h a ha.1)
  | cons c cs ih =>
    intro h
    unfold findString
    cases hm : matchAt alts (c :: cs) with
    | none =>
      refine ih ?_
      intro a ha hin
      exact h a ha (List.infix_cons hin)
    | some a =>
      have ha := matchAt_some hm
      exact absurd ha.2.isInfix (h a ha.1)

theorem findString_match {alts : List (List Char)} :
    ∀ s : List Char, (∃ a ∈ alts, a <:+: s) → findString alts s ∈ alts := by
  intro s
  induction s with
  | nil =>
    rintro ⟨a, ha, hin⟩
    have h0 : a = [] := by simpa using hin
    subst h0
    unfold findString
    cases hm : matchAt alts [] with
    | none => exact absurd (List.prefix_refl _) (matchAt_none hm [] ha)
    | some b => exact (matchAt_some hm).1
  | cons c cs ih =>
    rintro ⟨a, ha, hin⟩
    unfold findString
    cases hm : matchAt alts (c :: cs) with
    | none =>
      refine ih ⟨a, ha, ?_⟩
      rcases List.infix_cons_iff.mp hin with hp | hi
      · exact absurd hp (matchAt_none hm a ha)
      · exact hi
    | some b => exact (matchAt_some hm).1

theorem tags_exclusive : Exclusive tags := by
  intro a ha b hb s hpa hpb
  simp only [tags, List.mem_cons, List.mem_singleton, List.not_mem_nil, or_false] at ha hb
  rcases ha with rfl | rfl | rfl <;> rcases hb with rfl | rfl | rfl <;>
    first
    | rfl
    | (exfalso
       obtain ⟨u, hu⟩ := hpa
       obtain ⟨v, hv⟩ := hpb
       rw [← hv] at hu
       simp at hu)

theorem mem_tags {a : List Char} :
    a ∈ tags ↔ a = "Person".data ∨ a = "Movie".data ∨ a = "User".data := by
  simp [tags]

theorem matchAt_perm {alts : List (List Char)} (hp : alts.Perm tags) (s : List Char) :
    matchAt alts s = matchAt tags s := by
  cases h1 : matchAt alts s with
  | none =>
    cases h2 : matchAt tags s with
    | none => rfl
    | some b =>
      have hb := matchAt_some h2
      exact absurd hb.2 (matchAt_none h1 b (hp.mem_iff.mpr hb.1))
  | some a =>
    have ha := matchAt_some h1
    cases h2 : matchAt tags s with
    | none => exact absurd ha.2 (matchAt_none h2 a (hp.mem_iff.mp ha.1))
    | some b =>
      have hb := matchAt_some h2
      rw [tags_exclusive a (hp.mem_iff.mp ha.1) b hb.1 s ha.2 hb.2]

theorem findString_perm {alts : List (List Char)} (hp : alts.Perm tags) :
    ∀ s : List Char, findString alts s = findString tags s := by
  intro s
  induction s with
  | nil => unfold findString; rw [matchAt_perm hp]
  | cons c cs ih => unfold findString; rw [matchAt_perm hp, ih]

theorem queryType_no_tag (q : String)
    (h : ¬ (containsTag q "Person" ∨ containsTag q "Movie" ∨ containsTag q "User")) :
    String.mk (findString tags q.data) = "" := by
  have : findString tags q.data = [] := by
    apply findString_no_match
    intro a ha hin
    apply h
    rcases mem_tags.mp ha with rfl | rfl | rfl
    · exact Or.inl hin
    · exact Or.inr (Or.inl hin)
    · exact Or.inr (Or.inr hin)
  rw [this]

theorem queryType_of_tag (q : String)
    (h : containsTag q "Person" ∨ containsTag q "Movie" ∨ containsTag q "User") :
    String.mk (findString tags q.data) = "Person" ∨
      String.mk (findString tags q.data) = "Movie" ∨
      String.mk (findString tags q.data) = "User" := by
  have hm : findString tags q.data ∈ tags := by
    apply findString_match
    rcases h with h | h | h
    · exact ⟨_, mem_tags.mpr (Or.inl rfl), h⟩
    · exact ⟨_, mem_tags.mpr (Or.inr (Or.inl rfl)), h⟩
    · exact ⟨_, mem_tags.mpr (Or.inr (Or.inr rfl)), h⟩
  rcases mem_tags.mp hm with h | h | h
  · exact Or.inl (by rw [h])
  · exact Or.inr (Or.inl (by rw [h]))
  · exact Or.inr (Or.inr (by rw [h]))

theorem RepackWorker_of_queryType (env : Env) (args : Args) (w : World)
    (hconn : env.connectDSN "edgedb_bench" = none) :
    RepackWorker env args w =
      if String.mk (findString tags args.Query.data) = "Person" then
        .ret (execPerson benchPool args, ⟨benchPool⟩) (w.connected env)
      else if String.mk (findString tags args.Query.data) = "Movie" then
        .ret (execMovie benchPool args, ⟨benchPool⟩) (w.connected env)
      else if String.mk (findString tags args.Query.data) = "User" then
        .ret (execUser benchPool args, ⟨benchPool⟩) (w.connected env)
      else .fatal ("unknown query type " ++ quote (String.mk (findString tags args.Query.data)))
        (w.connected env) := by
  simp only [RepackWorker, hconn, benchPool, World.connected]

theorem RepackWorker_no_tag (env : Env) (args : Args) (w : World)
    (hconn : env.connectDSN "edgedb_bench" = none)
    (h : ¬ (containsTag args.Query "Person" ∨ containsTag args.Query "Movie" ∨
      containsTag args.Query "User")) :
    RepackWorker env args w = .fatal "unknown query type \"\"" (w.connected env) := by
  rw [RepackWorker_of_queryType env args w hconn, queryType_no_tag _ h]
  rfl

/-! ## The world after a library call -/

@[simp]
theorem World.emit_clock (w : World) (e : Event) (c : Nat) :
    (w.emit e c).clock = w.clock + c := rfl

@[simp]
theorem World.emit_issued (w : World) (e : Event) (c : Nat) :
    (w.emit e c).issued = w.issued := rfl

@[simp]
theorem World.emit_trace (w : World) (e : Event) (c : Nat) :
    (w.emit e c).trace = w.trace ++ [e] := rfl

@[simp]
theorem World.emitQuery_clock (w : World) (e : Event) (c : Nat) :
    (w.emitQuery e c).clock = w.clock + c := rfl

@[simp]
theorem World.emitQuery_issued (w : World) (e : Event) (c : Nat) :
    (w.emitQuery e c).issued = w.issued + 1 := rfl

@[simp]
theorem World.emitQuery_trace (w : World) (e : Event) (c : Nat) :
    (w.emitQuery e c).trace = w.trace ++ [e] := rfl

theorem emitted_of_trace {α : Type} (w : World) (o : Outcome α) (evs : List Event)
    (h : o.world.trace = w.trace ++ evs) : emitted w o = evs := by
  simp [emitted, h]

/-! ## The four closures, case by case -/

theorem execPerson_body_parse_err (env : Env) (pool : Pool) (args : Args) (v : PersonVars)
    (id : String) (w : World) (e : Err) (hp : (env.parseUUID id).2 = some e) :
    execPerson.body env pool args v id w = .fatal e (w.emit (.parseUUID id) (env.parseCost id)) := by
  simp [execPerson.body, hp]

theorem execPerson_body_query_err (env : Env) (pool : Pool) (args : Args) (v : PersonVars)
    (id : String) (w : World) (e : Err) (hp : (env.parseUUID id).2 = none)
    (hq : (env.queryOne env.person w.issued args.Query (v.params.set "id" (env.parseUUID id).1) v.person).2 = some e) :
    execPerson.body env pool args v id w = .fatal e
      (((w.emit (.parseUUID id) (env.parseCost id)).emit .timeNow 0).emitQuery (.queryOne args.Query (v.params.set "id" (env.parseUUID id).1))
        (env.queryCost w.issued args.Query (v.params.set "id" (env.parseUUID id).1))) := by
  simp [execPerson.body, hp, hq]

theorem execPerson_body_marshal_err (env : Env) (pool : Pool) (args : Args) (v : PersonVars)
    (id : String) (w : World) (e : Err) (hp : (env.parseUUID id).2 = none)
    (hq : (env.queryOne env.person w.issued args.Query (v.params.set "id" (env.parseUUID id).1) v.person).2 = none)
    (hm : (env.person.marshal (env.queryOne env.person w.issued args.Query (v.params.set "id" (env.parseUUID id).1) v.person).1).2 = some e) :
    execPerson.body env pool args v id w = .fatal e
      ((((w.emit (.parseUUID id) (env.parseCost id)).emit .timeNow 0).emitQuery (.queryOne args.Query (v.params.set "id" (env.parseUUID id).1))
        (env.queryCost w.issued args.Query (v.params.set "id" (env.parseUUID id).1))).emit .jsonMarshal
        (env.person.marshalCost (env.queryOne env.person w.issued args.Query (v.params.set "id" (env.parseUUID id).1) v.person).1)) := by
  simp [execPerson.body, hp, hq, hm]

theorem execPerson_body_ok (env : Env) (pool : Pool) (args : Args) (v : PersonVars)
    (id : String) (w : World) (hp : (env.parseUUID id).2 = none)
    (hq : (env.queryOne env.person w.issued args.Query (v.params.set "id" (env.parseUUID id).1) v.person).2 = none)
    (hm : (env.person.marshal (env.queryOne env.person w.issued args.Query (v.params.set "id" (env.parseUUID id).1) v.person).1).2 = none) :
    execPerson.body env pool args v id w =
      .ret (((env.queryCost w.issued args.Query (v.params.set "id" (env.parseUUID id).1) : Nat) +
          (env.person.marshalCost (env.queryOne env.person w.issued args.Query (v.params.set "id" (env.parseUUID id).1) v.person).1 : Nat),
          (env.person.marshal (env.queryOne env.person w.issued args.Query (v.params.set "id" (env.parseUUID id).1) v.person).1).1),
        ⟨(v.params.set "id" (env.parseUUID id).1), (env.queryOne env.person w.issued args.Query (v.params.set "id" (env.parseUUID id).1) v.person).1,
          w.clock + env.parseCost id,
          (env.queryCost w.issued args.Query (v.params.set "id" (env.parseUUID id).1) : Nat) +
            (env.person.marshalCost (env.queryOne env.person w.issued args.Query (v.params.set "id" (env.parseUUID id).1) v.person).1 : Nat),
          none, (env.person.marshal (env.queryOne env.person w.issued args.Query (v.params.set "id" (env.parseUUID id).1) v.person).1).1⟩)
      (((((w.emit (.parseUUID id) (env.parseCost id)).emit .timeNow 0).emitQuery (.queryOne args.Query (v.params.set "id" (env.parseUUID id).1))
        (env.queryCost w.issued args.Query (v.params.set "id" (env.parseUUID id).1))).emit .jsonMarshal
        (env.person.marshalCost (env.queryOne env.person w.issued args.Query (v.params.set "id" (env.parseUUID id).1) v.person).1)).emit .timeSince 0) := by
  simp [execPerson.body, hp, hq, hm]
  omega

theorem execMovie_body_parse_err (env : Env) (pool : Pool) (args : Args) (v : MovieVars)
    (id : String) (w : World) (e : Err) (hp : (env.parseUUID id).2 = some e) :
    execMovie.body env pool args v id w = .fatal e (w.emit (.parseUUID id) (env.parseCost id)) := by
  simp [execMovie.body, hp]

theorem execMovie_body_query_err (env : Env) (pool : Pool) (args : Args) (v : MovieVars)
    (id : String) (w : World) (e : Err) (hp : (env.parseUUID id).2 = none)
    (hq : (env.queryOne env.movie w.issued args.Query (v.params.set "id" (env.parseUUID id).1) v.movie).2 = some e) :
    execMovie.body env pool args v id w = .fatal e
      (((w.emit (.parseUUID id) (env.parseCost id)).emit .timeNow 0).emitQuery (.queryOne args.Query (v.params.set "id" (env.parseUUID id).1))
        (env.queryCost w.issued args.Query (v.params.set "id" (env.parseUUID id).1))) := by
  simp [execMovie.body, hp, hq]

theorem execMovie_body_marshal_err (env : Env) (pool : Pool) (args : Args) (v : MovieVars)
    (id : String) (w : World) (e : Err) (hp : (env.parseUUID id).2 = none)
    (hq : (env.queryOne env.movie w.issued args.Query (v.params.set "id" (env.parseUUID id).1) v.movie).2 = none)
    (hm : (env.movie.marshal (env.queryOne env.movie w.issued args.Query (v.params.set "id" (env.parseUUID id).1) v.movie).1).2 = some e) :
    execMovie.body env pool args v id w = .fatal e
      ((((w.emit (.parseUUID id) (env.parseCost id)).emit .timeNow 0).emitQuery (.queryOne args.Query (v.params.set "id" (env.parseUUID id).1))
        (env.queryCost w.issued args.Query (v.params.set "id" (env.parseUUID id).1))).emit .jsonMarshal
        (env.movie.marshalCost (env.queryOne env.movie w.issued args.Query (v.params.set "id" (env.parseUUID id).1) v.movie).1)) := by
  simp [execMovie.body, hp, hq, hm]

theorem execMovie_body_ok (env : Env) (pool : Pool) (args : Args) (v : MovieVars)
    (id : String) (w : World) (hp : (env.parseUUID id).2 = none)
    (hq : (env.queryOne env.movie w.issued args.Query (v.params.set "id" (env.parseUUID id).1) v.movie).2 = none)
    (hm : (env.movie.marshal (env.queryOne env.movie w.issued args.Query (v.params.set "id" (env.parseUUID id).1) v.movie).1).2 = none) :
    execMovie.body env pool args v id w =
      .ret (((env.queryCost w.issued args.Query (v.params.set "id" (env.parseUUID id).1) : Nat) +
          (env.movie.marshalCost (env.queryOne env.movie w.issued args.Query (v.params.set "id" (env.parseUUID id).1) v.movie).1 : Nat),
          (env.movie.marshal (env.queryOne env.movie w.issued args.Query (v.params.set "id" (env.parseUUID id).1) v.movie).1).1),
        ⟨(v.params.set "id" (env.parseUUID id).1), (env.queryOne env.movie w.issued args.Query (v.params.set "id" (env.parseUUID id).1) v.movie).1,
          w.clock + env.parseCost id,
          (env.queryCost w.issued args.Query (v.params.set "id" (env.parseUUID id).1) : Nat) +
            (env.movie.marshalCost (env.queryOne env.movie w.issued args.Query (v.params.set "id" (env.parseUUID id).1) v.movie).1 : Nat),
          none, (env.movie.marshal (env.queryOne env.movie w.issued args.Query (v.params.set "id" (env.parseUUID id).1) v.movie).1).1⟩)
      (((((w.emit (.parseUUID id) (env.parseCost id)).emit .timeNow 0).emitQuery (.queryOne args.Query (v.params.set "id" (env.parseUUID id).1))
        (env.queryCost w.issued args.Query (v.params.set "id" (env.parseUUID id).1))).emit .jsonMarshal
        (env.movie.marshalCost (env.queryOne env.movie w.issued args.Query (v.params.set "id" (env.parseUUID id).1) v.movie).1)).emit .timeSince 0) := by
  simp [execMovie.body, hp, hq, hm]
  omega

theorem execUser_body_parse_err (env : Env) (pool : Pool) (args : Args) (v : UserVars)
    (id : String) (w : World) (e : Err) (hp : (env.parseUUID id).2 = some e) :
    execUser.body env pool args v id w = .fatal e (w.emit (.parseUUID id) (env.parseCost id)) := by
  simp [execUser.body, hp]

theorem execUser_body_query_err (env : Env) (pool : Pool) (args : Args) (v : UserVars)
    (id : String) (w : World) (e : Err) (hp : (env.parseUUID id).2 = none)
    (hq : (env.queryOne env.user w.issued args.Query (v.params.set "id" (env.parseUUID id).1) v.user).2 = some e) :
    execUser.body env pool args v id w = .fatal e
      (((w.emit (.parseUUID id) (env.parseCost id)).emit .timeNow 0).emitQuery (.queryOne args.Query (v.params.set "id" (env.parseUUID id).1))
        (env.queryCost w.issued args.Query (v.params.set "id" (env.parseUUID id).1))) := by
  simp [execUser.body, hp, hq]

theorem execUser_body_marshal_err (env : Env) (pool : Pool) (args : Args) (v : UserVars)
    (id : String) (w : World) (e : Err) (hp : (env.parseUUID id).2 = none)
    (hq : (env.queryOne env.user w.issued args.Query (v.params.set "id" (env.parseUUID id).1) v.user).2 = none)
    (hm : (env.user.marshal (env.queryOne env.user w.issued args.Query (v.params.set "id" (env.parseUUID id).1) v.user).1).2 = some e) :
    execUser.body env pool args v id w = .fatal e
      ((((w.emit (.parseUUID id) (env.parseCost id)).emit .timeNow 0).emitQuery (.queryOne args.Query (v.params.set "id" (env.parseUUID id).1))
        (env.queryCost w.issued args.Query (v.params.set "id" (env.parseUUID id).1))).emit .jsonMarshal
        (env.user.marshalCost (env.queryOne env.user w.issued args.Query (v.params.set "id" (env.parseUUID id).1) v.user).1)) := by
  simp [execUser.body, hp, hq, hm]

theorem execUser_body_ok (env : Env) (pool : Pool) (args : Args) (v : UserVars)
    (id : String) (w : World) (hp : (env.parseUUID id).2 = none)
    (hq : (env.queryOne env.user w.issued args.Query (v.params.set "id" (env.parseUUID id).1) v.user).2 = none)
    (hm : (env.user.marshal (env.queryOne env.user w.issued args.Query (v.params.set "id" (env.parseUUID id).1) v.user).1).2 = none) :
    execUser.body env pool args v id w =
      .ret (((env.queryCost w.issued args.Query (v.params.set "id" (env.parseUUID id).1) : Nat) +
          (env.user.marshalCost (env.queryOne env.user w.issued args.Query (v.params.set "id" (env.parseUUID id).1) v.user).1 : Nat),
          (env.user.marshal (env.queryOne env.user w.issued args.Query (v.params.set "id" (env.parseUUID id).1) v.user).1).1),
        ⟨(v.params.set "id" (env.parseUUID id).1), (env.queryOne env.user w.issued args.Query (v.params.set "id" (env.parseUUID id).1) v.user).1,
          w.clock + env.parseCost id,
          (env.queryCost w.issued args.Query (v.params.set "id" (env.parseUUID id).1) : Nat) +
            (env.user.marshalCost (env.queryOne env.user w.issued args.Query (v.params.set "id" (env.parseUUID id).1) v.user).1 : Nat),
          none, (env.user.marshal (env.queryOne env.user w.issued args.Query (v.params.set "id" (env.parseUUID id).1) v.user).1).1⟩)
      (((((w.emit (.parseUUID id) (env.parseCost id)).emit .timeNow 0).emitQuery (.queryOne args.Query (v.params.set "id" (env.parseUUID id).1))
        (env.queryCost w.issued args.Query (v.params.set "id" (env.parseUUID id).1))).emit .jsonMarshal
        (env.user.marshalCost (env.queryOne env.user w.issued args.Query (v.params.set "id" (env.parseUUID id).1) v.user).1)).emit .timeSince 0) := by
  simp [execUser.body, hp, hq, hm]
  omega

theorem JSONWorker_body_parse_err (env : Env) (pool : Pool) (args : Args) (v : JSONVars)
    (id : String) (w : World) (e : Err) (hp : (env.parseUUID id).2 = some e) :
    JSONWorker.body env pool args v id w = .fatal e (w.emit (.parseUUID id) (env.parseCost id)) := by
  simp [JSONWorker.body, hp]

theorem JSONWorker_body_query_err (env : Env) (pool : Pool) (args : Args) (v : JSONVars)
    (id : String) (w : World) (e : Err) (hp : (env.parseUUID id).2 = none)
    (hq : (env.queryOneJSON w.issued args.Query (v.params.set "id" (env.parseUUID id).1) v.rsp).2 = some e) :
    JSONWorker.body env pool args v id w = .fatal e
      ((((w.emit (.parseUUID id) (env.parseCost id)).emit .timeNow 0).emitQuery (.queryOneJSON args.Query (v.params.set "id" (env.parseUUID id).1))
        (env.queryCost w.issued args.Query (v.params.set "id" (env.parseUUID id).1))).emit .timeSince 0) := by
  simp [JSONWorker.body, hp, hq]

theorem JSONWorker_body_ok (env : Env) (pool : Pool) (args : Args) (v : JSONVars)
    (id : String) (w : World) (hp : (env.parseUUID id).2 = none)
    (hq : (env.queryOneJSON w.issued args.Query (v.params.set "id" (env.parseUUID id).1) v.rsp).2 = none) :
    JSONWorker.body env pool args v id w =
      .ret (((env.queryCost w.issued args.Query (v.params.set "id" (env.parseUUID id).1) : Nat),
          (env.queryOneJSON w.issued args.Query (v.params.set "id" (env.parseUUID id).1) v.rsp).1),
        ⟨none, (v.params.set "id" (env.parseUUID id).1), (env.queryOneJSON w.issued args.Query (v.params.set "id" (env.parseUUID id).1) v.rsp).1,
          w.clock + env.parseCost id,
          (env.queryCost w.issued args.Query (v.params.set "id" (env.parseUUID id).1) : Nat)⟩)
      ((((w.emit (.parseUUID id) (env.parseCost id)).emit .timeNow 0).emitQuery (.queryOneJSON args.Query (v.params.set "id" (env.parseUUID id).1))
        (env.queryCost w.issued args.Query (v.params.set "id" (env.parseUUID id).1))).emit .timeSince 0) := by
  simp [JSONWorker.body, hp, hq]

/-! ## Calling an executor -/

theorem Exec.call_parse_err (env : Env) (e : Exec) (id : String) (w : World) (perr : Err)
    (hp : (env.parseUUID id).2 = some perr) :
    e.call env id w = .fatal perr (w.emit (.parseUUID id) (env.parseCost id)) := by
  cases e with
  | person pool args v =>
    simp [Exec.call, execPerson_body_parse_err env pool args v id w perr hp, Outcome.map]
  | movie pool args v =>
    simp [Exec.call, execMovie_body_parse_err env pool args v id w perr hp, Outcome.map]
  | user pool args v =>
    simp [Exec.call, execUser_body_parse_err env pool args v id w perr hp, Outcome.map]
  | json pool args v =>
    simp [Exec.call, JSONWorker_body_parse_err env pool args v id w perr hp, Outcome.map]

theorem Exec.call_world_trace (env : Env) (e : Exec) (id : String) (w : World) :
    (e.call env id w).world.trace = w.trace ++ e.expectedTrace env id w := by
  cases e with
  | person pool args v =>
    rcases hp : (env.parseUUID id).2 with _ | perr
    · rcases hq : (env.queryOne env.person w.issued args.Query
        (v.params.set "id" (env.parseUUID id).1) v.person).2 with _ | qerr
      · rcases hm : (env.person.marshal (env.queryOne env.person w.issued args.Query
          (v.params.set "id" (env.parseUUID id).1) v.person).1).2 with _ | merr
        · simp [Exec.call, execPerson_body_ok env pool args v id w hp hq hm, Outcome.map,
            Outcome.world, Exec.expectedTrace, Exec.family, Exec.queryErr, Exec.marshalErr,
            Exec.params, Exec.args, hp, hq, hm]
        · simp [Exec.call, execPerson_body_marshal_err env pool args v id w merr hp hq hm,
            Outcome.map, Outcome.world, Exec.expectedTrace, Exec.family, Exec.queryErr,
            Exec.marshalErr, Exec.params, Exec.args, hp, hq, hm]
      · simp [Exec.call, execPerson_body_query_err env pool args v id w qerr hp hq,
          Outcome.map, Outcome.world, Exec.expectedTrace, Exec.family, Exec.queryErr,
          Exec.params, Exec.args, hp, hq]
    · simp [Exec.call, execPerson_body_parse_err env pool args v id w perr hp, Outcome.map,
        Outcome.world, Exec.expectedTrace, Exec.family, hp]
  | movie pool args v =>
    rcases hp : (env.parseUUID id).2 with _ | perr
    · rcases hq : (env.queryOne env.movie w.issued args.Query
        (v.params.set "id" (env.parseUUID id).1) v.movie).2 with _ | qerr
      · rcases hm : (env.movie.marshal (env.queryOne env.movie w.issued args.Query
          (v.params.set "id" (env.parseUUID id).1) v.movie).1).2 with _ | merr
        · simp [Exec.call, execMovie_body_ok env pool args v id w hp hq hm, Outcome.map,
            Outcome.world, Exec.expectedTrace, Exec.family, Exec.queryErr, Exec.marshalErr,
            Exec.params, Exec.args, hp, hq, hm]
        · simp [Exec.call, execMovie_body_marshal_err env pool args v id w merr hp hq hm,
            Outcome.map, Outcome.world, Exec.expectedTrace, Exec.family, Exec.queryErr,
            Exec.marshalErr, Exec.params, Exec.args, hp, hq, hm]
      · simp [Exec.call, execMovie_body_query_err env pool args v id w qerr hp hq,
          Outcome.map, Outcome.world, Exec.expectedTrace, Exec.family, Exec.queryErr,
          Exec.params, Exec.args, hp, hq]
    · simp [Exec.call, execMovie_body_parse_err env pool args v id w perr hp, Outcome.map,
        Outcome.world, Exec.expectedTrace, Exec.family, hp]
  | user pool args v =>
    rcases hp : (env.parseUUID id).2 with _ | perr
    · rcases hq : (env.queryOne env.user w.issued args.Query
        (v.params.set "id" (env.parseUUID id).1) v.user).2 with _ | qerr
      · rcases hm : (env.user.marshal (env.queryOne env.user w.issued args.Query
          (v.params.set "id" (env.parseUUID id).1) v.user).1).2 with _ | merr
        · simp [Exec.call, execUser_body_ok env pool args v id w hp hq hm, Outcome.map,
            Outcome.world, Exec.expectedTrace, Exec.family, Exec.queryErr, Exec.marshalErr,
            Exec.params, Exec.args, hp, hq, hm]
        · simp [Exec.call, execUser_body_marshal_err env pool args v id w merr hp hq hm,
            Outcome.map, Outcome.world, Exec.expectedTrace, Exec.family, Exec.queryErr,
            Exec.marshalErr, Exec.params, Exec.args, hp, hq, hm]
      · simp [Exec.call, execUser_body_query_err env pool args v id w qerr hp hq,
          Outcome.map, Outcome.world, Exec.expectedTrace, Exec.family, Exec.queryErr,
          Exec.params, Exec.args, hp, hq]
    · simp [Exec.call, execUser_body_parse_err env pool args v id w perr hp, Outcome.map,
        Outcome.world, Exec.expectedTrace, Exec.family, hp]
  | json pool args v =>
    rcases hp : (env.parseUUID id).2 with _ | perr
    · rcases hq : (env.queryOneJSON w.issued args.Query
        (v.params.set "id" (env.parseUUID id).1) v.rsp).2 with _ | qerr
      · simp [Exec.call, JSONWorker_body_ok env pool args v id w hp hq, Outcome.map,
          Outcome.world, Exec.expectedTrace, Exec.family, Exec.params, Exec.args, hp]
      · simp [Exec.call, JSONWorker_body_query_err env pool args v id w qerr hp hq,
          Outcome.map, Outcome.world, Exec.expectedTrace, Exec.family, Exec.params,
          Exec.args, hp]
    · simp [Exec.call, JSONWorker_body_parse_err env pool args v id w perr hp, Outcome.map,
        Outcome.world, Exec.expectedTrace, Exec.family, hp]

theorem Exec.call_returned_iff (env : Env) (e : Exec) (id : String) (w : World) :
    (e.call env id w).returned = true ↔ e.succeeds env id w := by
  cases e with
  | person pool args v =>
    rcases hp : (env.parseUUID id).2 with _ | perr
    · rcases hq : (env.queryOne env.person w.issued args.Query
        (v.params.set "id" (env.parseUUID id).1) v.person).2 with _ | qerr
      · rcases hm : (env.person.marshal (env.queryOne env.person w.issued args.Query
          (v.params.set "id" (env.parseUUID id).1) v.person).1).2 with _ | merr
        · simp [Exec.call, execPerson_body_ok env pool args v id w hp hq hm, Outcome.map,
            Outcome.returned, Exec.succeeds, Exec.queryErr, Exec.marshalErr, hp, hq, hm]
        · simp [Exec.call, execPerson_body_marshal_err env pool args v id w merr hp hq hm,
            Outcome.map, Outcome.returned, Exec.succeeds, Exec.queryErr, Exec.marshalErr,
            hp, hq, hm]
      · simp [Exec.call, execPerson_body_query_err env pool args v id w qerr hp hq,
          Outcome.map, Outcome.returned, Exec.succeeds, Exec.queryErr, hp, hq]
    · simp [Exec.call, execPerson_body_parse_err env pool args v id w perr hp, Outcome.map,
        Outcome.returned, Exec.succeeds, hp]
  | movie pool args v =>
    rcases hp : (env.parseUUID id).2 with _ | perr
    · rcases hq : (env.queryOne env.movie w.issued args.Query
        (v.params.set "id" (env.parseUUID id).1) v.movie).2 with _ | qerr
      · rcases hm : (env.movie.marshal (env.queryOne env.movie w.issued args.Query
          (v.params.set "id" (env.parseUUID id).1) v.movie).1).2 with _ | merr
        · simp [Exec.call, execMovie_body_ok env pool args v id w hp hq hm, Outcome.map,
            Outcome.returned, Exec.succeeds, Exec.queryErr, Exec.marshalErr, hp, hq, hm]
        · simp [Exec.call, execMovie_body_marshal_err env pool args v id w merr hp hq hm,
            Outcome.map, Outcome.returned, Exec.succeeds, Exec.queryErr, Exec.marshalErr,
            hp, hq, hm]
      · simp [Exec.call, execMovie_body_query_err env pool args v id w qerr hp hq,
          Outcome.map, Outcome.returned, Exec.succeeds, Exec.queryErr, hp, hq]
    · simp [Exec.call, execMovie_body_parse_err env pool args v id w perr hp, Outcome.map,
        Outcome.returned, Exec.succeeds, hp]
  | user pool args v =>
    rcases hp : (env.parseUUID id).2 with _ | perr
    · rcases hq : (env.queryOne env.user w.issued args.Query
        (v.params.set "id" (env.parseUUID id).1) v.user).2 with _ | qerr
      · rcases hm : (env.user.marshal (env.queryOne env.user w.issued args.Query
          (v.params.set "id" (env.parseUUID id).1) v.user).1).2 with _ | merr
        · simp [Exec.call, execUser_body_ok env pool args v id w hp hq hm, Outcome.map,
            Outcome.returned, Exec.succeeds, Exec.queryErr, Exec.marshalErr, hp, hq, hm]
        · simp [Exec.call, execUser_body_marshal_err env pool args v id w merr hp hq hm,
            Outcome.map, Outcome.returned, Exec.succeeds, Exec.queryErr, Exec.marshalErr,
            hp, hq, hm]
      · simp [Exec.call, execUser_body_query_err env pool args v id w qerr hp hq,
          Outcome.map, Outcome.returned, Exec.succeeds, Exec.queryErr, hp, hq]
    · simp [Exec.call, execUser_body_parse_err env pool args v id w perr hp, Outcome.map,
        Outcome.returned, Exec.succeeds, hp]
  | json pool args v =>
    rcases hp : (env.parseUUID id).2 with _ | perr
    · rcases hq : (env.queryOneJSON w.issued args.Query
        (v.params.set "id" (env.parseUUID id).1) v.rsp).2 with _ | qerr
      · simp [Exec.call, JSONWorker_body_ok env pool args v id w hp hq, Outcome.map,
          Outcome.returned, Exec.succeeds, Exec.queryErr, Exec.marshalErr, hp, hq]
      · simp [Exec.call, JSONWorker_body_query_err env pool args v id w qerr hp hq,
          Outcome.map, Outcome.returned, Exec.succeeds, Exec.queryErr, hp, hq]
    · simp [Exec.call, JSONWorker_body_parse_err env pool args v id w perr hp, Outcome.map,
        Outcome.returned, Exec.succeeds, hp]

/-! ## Claims about one invocation -/

/-- C3: for each of the four executors (in any state of their captured variables) and every
identifier on which `edgedb.ParseUUID` returns an error, the call ends in `log.Fatal` with
that parse error, no pair is returned, the only library call made is the parse itself, so no
`QueryOne` / `QueryOneJSON` event occurs and the number of queries sent on the pool is
unchanged. -/
theorem parse_failure_fatal_without_query (env : Env) (e : Exec) (id : String) (w : World)
    (perr : Err) (hp : (env.parseUUID id).2 = some perr) :
    e.call env id w = .fatal perr (w.emit (.parseUUID id) (env.parseCost id)) ∧
    (e.call env id w).value? = none ∧
    emitted w (e.call env id w) = [.parseUUID id] ∧
    (emitted w (e.call env id w)).countP Event.isQuery = 0 ∧
    (e.call env id w).world.issued = w.issued := by
  have h := Exec.call_parse_err env e id w perr hp
  rw [h]
  have hev : emitted w (Outcome.fatal perr (w.emit (.parseUUID id) (env.parseCost id)) :
      Outcome ((Int × String) × Exec)) = [.parseUUID id] := emitted_of_trace _ _ _ rfl
  refine ⟨rfl, rfl, hev, ?_, rfl⟩
  rw [hev]
  rfl

theorem parse_failure_fatal_without_query_witness :
    (demoEnv.parseUUID "not-a-uuid").2 = some "edgedb: invalid UUID" ∧
    (execMovie benchPool ⟨"select Movie"⟩).call demoEnv "not-a-uuid" World.init =
      .fatal "edgedb: invalid UUID" ⟨1, 0, [.parseUUID "not-a-uuid"]⟩ ∧
    (emitted World.init ((execMovie benchPool ⟨"select Movie"⟩).call demoEnv "not-a-uuid"
      World.init)).countP Event.isQuery = 0 :=
  have h := parse_failure_fatal_without_query demoEnv (execMovie benchPool ⟨"select Movie"⟩)
    "not-a-uuid" World.init "edgedb: invalid UUID" (by decide)
  ⟨by decide, h.1, h.2.2.2.1⟩

/-- C5: for the executor of `JSONWorker` and every identifier that parses, the library calls
of one invocation are exactly parse, `time.Now`, `QueryOneJSON`, `time.Since`, whether the
query succeeds or not: the start reading is the call right before `QueryOneJSON`, the stop
reading the call right after it, taken before the error check. When the query succeeds the
returned duration is exactly the time `QueryOneJSON` took and the payload is the response
buffer; when it fails the call is fatal with the query error. -/
theorem JSONWorker_timer_brackets_query (env : Env) (pool : Pool) (args : Args) (v : JSONVars)
    (id : String) (w : World) (hp : (env.parseUUID id).2 = none) :
    emitted w (JSONWorker.body env pool args v id w) =
      [.parseUUID id, .timeNow,
        .queryOneJSON args.Query (v.params.set "id" (env.parseUUID id).1), .timeSince] ∧
    ((env.queryOneJSON w.issued args.Query (v.params.set "id" (env.parseUUID id).1) v.rsp).2
        = none →
      ∃ v' w', JSONWorker.body env pool args v id w =
        .ret (((env.queryCost w.issued args.Query
            (v.params.set "id" (env.parseUUID id).1) : Nat),
          (env.queryOneJSON w.issued args.Query
            (v.params.set "id" (env.parseUUID id).1) v.rsp).1), v') w' ∧
        v'.start = w.clock + env.parseCost id ∧
        w'.clock = v'.start +
          env.queryCost w.issued args.Query (v.params.set "id" (env.parseUUID id).1)) ∧
    (∀ qerr,
      (env.queryOneJSON w.issued args.Query (v.params.set "id" (env.parseUUID id).1) v.rsp).2
        = some qerr →
      ∃ w', JSONWorker.body env pool args v id w = .fatal qerr w' ∧
        w'.clock = w.clock + env.parseCost id +
          env.queryCost w.issued args.Query (v.params.set "id" (env.parseUUID id).1)) := by
  refine ⟨?_, ?_, ?_⟩
  · rcases hq : (env.queryOneJSON w.issued args.Query
      (v.params.set "id" (env.parseUUID id).1) v.rsp).2 with _ | qerr
    · rw [JSONWorker_body_ok env pool args v id w hp hq]
      exact emitted_of_trace _ _ _ (by simp [Outcome.world])
    · rw [JSONWorker_body_query_err env pool args v id w qerr hp hq]
      exact emitted_of_trace _ _ _ (by simp [Outcome.world])
  · intro hq
    rw [JSONWorker_body_ok env pool args v id w hp hq]
    exact ⟨_, _, rfl, rfl, by simp⟩
  · intro qerr hq
    rw [JSONWorker_body_query_err env pool args v id w qerr hp hq]
    exact ⟨_, rfl, by simp⟩

theorem JSONWorker_timer_brackets_query_witness :
    (demoEnv.parseUUID demoId).2 = none ∧
    emitted World.init (JSONWorker.body demoEnv benchPool ⟨"select User"⟩ JSONVars.init demoId
      World.init) =
      [.parseUUID demoId, .timeNow, .queryOneJSON "select User" [("id", ⟨36⟩)], .timeSince] :=
  ⟨by decide, (JSONWorker_timer_brackets_query demoEnv benchPool ⟨"select User"⟩ JSONVars.init
    demoId World.init (by decide)).1⟩

/-- C7: for each of the four executors, a call returns a (duration, payload) pair if and only
if identifier parsing succeeds, the single-row query with its decode succeeds and, for the
structured executors, marshaling succeeds; otherwise the call ends in `log.Fatal` and no pair
is returned; in every case at most one query is sent (no retry). -/
theorem call_returns_iff_steps_succeed (env : Env) (e : Exec) (id : String) (w : World) :
    ((∃ d payload e' w', e.call env id w = .ret ((d, payload), e') w') ↔
      e.succeeds env id w) ∧
    (¬ e.succeeds env id w →
      (∃ msg w', e.call env id w = .fatal msg w') ∧ (e.call env id w).value? = none) ∧
    (emitted w (e.call env id w)).countP Event.isQuery ≤ 1 := by
  have hiff := Exec.call_returned_iff env e id w
  refine ⟨?_, ?_, ?_⟩
  · rw [← hiff]
    constructor
    · rintro ⟨d, p, e', w', h⟩
      rw [h]; rfl
    · intro h
      cases hc : e.call env id w with
      | ret a w' => exact ⟨a.1.1, a.1.2, a.2, w', rfl⟩
      | fatal m w' => rw [hc] at h; exact absurd h (by simp [Outcome.returned])
  · intro hn
    rw [← hiff] at hn
    cases hc : e.call env id w with
    | ret a w' => rw [hc] at hn; exact absurd rfl hn
    | fatal m w' => exact ⟨⟨m, w', rfl⟩, rfl⟩
  · rw [emitted_of_trace w _ _ (Exec.call_world_trace env e id w)]
    unfold Exec.expectedTrace
    cases e.family <;> dsimp only <;> split <;> simp [List.countP_cons, Event.isQuery]

/-! ## The timed window of the structured executors -/

/-- C1, as stated, fails: with a query that takes 10 ns and a `json.Marshal` that takes 3 ns
`execPerson` returns a duration of 13 ns, not the 10 ns between the start reading and the
return of `QueryOne`; with a `json.Marshal` that takes 1000 ns it returns 1010 ns. The
trace shows `json.Marshal` before `time.Since`. -/
theorem execPerson_duration_counts_marshal :
    demoEnv.queryCost 0 "select Person" [("id", ⟨36⟩)] = 10 ∧
    (execPerson.body demoEnv benchPool ⟨"select Person"⟩ PersonVars.init demoId
      World.init).value?.map (fun r => r.1) = some (13, "first") ∧
    (execPerson.body (demoEnvMarshalCost 1000) benchPool ⟨"select Person"⟩ PersonVars.init
      demoId World.init).value?.map (fun r => r.1) = some (1010, "first") ∧
    emitted World.init (execPerson.body demoEnv benchPool ⟨"select Person"⟩ PersonVars.init
      demoId World.init) =
      [.parseUUID demoId, .timeNow, .queryOne "select Person" [("id", ⟨36⟩)], .jsonMarshal,
        .timeSince] := by
  decide

/-- C1, amended: for each structured executor (`execPerson`, `execMovie`, `execUser`) and
every identifier for which parsing, the query and marshaling succeed, the call returns and
the returned duration includes the marshaling step: the library calls are parse, `time.Now`,
`QueryOne`, `json.Marshal`, `time.Since` in this order, so the stop reading is taken after
`json.Marshal` returns, and the duration is the time `QueryOne` took plus the time
`json.Marshal` took. -/
theorem structured_duration_includes_marshal (env : Env) (e : Exec) (id : String) (w : World)
    (hfam : e.family ≠ .json) (hok : e.succeeds env id w) :
    (∃ payload e' w', e.call env id w =
        .ret ((((e.queryTime env id w + e.marshalTime env id w : Nat) : Int), payload), e') w' ∧
      w'.clock = w.clock + env.parseCost id + e.queryTime env id w + e.marshalTime env id w) ∧
    emitted w (e.call env id w) =
      structuredTrace e.args.Query (e.params.set "id" (env.parseUUID id).1) id := by
  obtain ⟨hp, hq, hm⟩ := hok
  constructor
  · cases e with
    | person pool args v =>
      simp only [Exec.call, execPerson_body_ok env pool args v id w hp hq hm, Outcome.map]
      simp only [Exec.queryTime, Exec.marshalTime, Exec.args, Exec.params, Nat.cast_add]
      exact ⟨_, _, _, rfl, by simp⟩
    | movie pool args v =>
      simp only [Exec.call, execMovie_body_ok env pool args v id w hp hq hm, Outcome.map]
      simp only [Exec.queryTime, Exec.marshalTime, Exec.args, Exec.params, Nat.cast_add]
      exact ⟨_, _, _, rfl, by simp⟩
    | user pool args v =>
      simp only [Exec.call, execUser_body_ok env pool args v id w hp hq hm, Outcome.map]
      simp only [Exec.queryTime, Exec.marshalTime, Exec.args, Exec.params, Nat.cast_add]
      exact ⟨_, _, _, rfl, by simp⟩
    | json pool args v => exact absurd rfl hfam
  · rw [emitted_of_trace w _ _ (Exec.call_world_trace env e id w)]
    unfold Exec.expectedTrace structuredTrace
    cases hf : e.family with
    | json => exact absurd hf hfam
    | person => simp [hp, hq, hm]
    | movie => simp [hp, hq, hm]
    | user => simp [hp, hq, hm]

theorem structured_duration_includes_marshal_witness :
    (execPerson benchPool ⟨"select Person"⟩).family ≠ .json ∧
    (execPerson benchPool ⟨"select Person"⟩).succeeds (demoEnvMarshalCost 1000) demoId
      World.init ∧
    emitted World.init ((execPerson benchPool ⟨"select Person"⟩).call (demoEnvMarshalCost 1000)
      demoId World.init) =
      structuredTrace "select Person" [("id", ⟨36⟩)] demoId :=
  ⟨by decide, ⟨by decide, by decide, by decide⟩,
    (structured_duration_includes_marshal (demoEnvMarshalCost 1000)
      (execPerson benchPool ⟨"select Person"⟩) demoId World.init (by decide)
      ⟨by decide, by decide, by decide⟩).2⟩

/-! ## The structured executors and the generic executor -/

theorem execGeneric_trace {T : Type} (env : Env) (c : Codec T) (args : Args) (v : Vars T)
    (id : String) (w : World) :
    ∃ evs, (execGeneric env c args v id w).world.trace = w.trace ++ evs ∧
      evs <+: structuredTrace args.Query (v.params.set "id" (env.parseUUID id).1) id ∧
      ((execGeneric env c args v id w).returned = true ↔
        evs = structuredTrace args.Query (v.params.set "id" (env.parseUUID id).1) id) := by
  rcases hp : (env.parseUUID id).2 with _ | perr
  · rcases hq : (env.queryOne c w.issued args.Query
      (v.params.set "id" (env.parseUUID id).1) v.target).2 with _ | qerr
    · rcases hm : (c.marshal (env.queryOne c w.issued args.Query
        (v.params.set "id" (env.parseUUID id).1) v.target).1).2 with _ | merr
      · refine ⟨structuredTrace args.Query (v.params.set "id" (env.parseUUID id).1) id,
          ?_, List.prefix_refl _, ?_⟩
        · simp [execGeneric, hp, hq, hm, Outcome.world, structuredTrace]
        · simp [execGeneric, hp, hq, hm, Outcome.returned]
      · refine ⟨[.parseUUID id, .timeNow,
          .queryOne args.Query (v.params.set "id" (env.parseUUID id).1), .jsonMarshal],
          ?_, ?_, ?_⟩
        · simp [execGeneric, hp, hq, hm, Outcome.world]
        · exact ⟨[.timeSince], rfl⟩
        · simp [execGeneric, hp, hq, hm, Outcome.returned, structuredTrace]
    · refine ⟨[.parseUUID id, .timeNow,
        .queryOne args.Query (v.params.set "id" (env.parseUUID id).1)], ?_, ?_, ?_⟩
      · simp [execGeneric, hp, hq, Outcome.world]
      · exact ⟨[.jsonMarshal, .timeSince], rfl⟩
      · simp [execGeneric, hp, hq, Outcome.returned, structuredTrace]
  · refine ⟨[.parseUUID id], ?_, ?_, ?_⟩
    · simp [execGeneric, hp, Outcome.world]
    · exact ⟨[.timeNow, .queryOne args.Query (v.params.set "id" (env.parseUUID id).1),
        .jsonMarshal, .timeSince], rfl⟩
    · simp [execGeneric, hp, Outcome.returned, structuredTrace]

theorem execPerson_refines_generic (env : Env) (pool : Pool) (args : Args) (v : PersonVars)
    (id : String) (w : World) :
    (execPerson.body env pool args v id w).map (fun r => (r.1, r.2.toVars)) =
      execGeneric env env.person args v.toVars id w := by
  rcases hp : (env.parseUUID id).2 with _ | perr
  · rcases hq : (env.queryOne env.person w.issued args.Query
      (v.params.set "id" (env.parseUUID id).1) v.person).2 with _ | qerr
    · rcases hm : (env.person.marshal (env.queryOne env.person w.issued args.Query
        (v.params.set "id" (env.parseUUID id).1) v.person).1).2 with _ | merr
      · rw [execPerson_body_ok env pool args v id w hp hq hm]
        simp [execGeneric, PersonVars.toVars, hp, hq, hm, Outcome.map]
        omega
      · rw [execPerson_body_marshal_err env pool args v id w merr hp hq hm]
        simp [execGeneric, PersonVars.toVars, hp, hq, hm, Outcome.map]
    · rw [execPerson_body_query_err env pool args v id w qerr hp hq]
      simp [execGeneric, PersonVars.toVars, hp, hq, Outcome.map]
  · rw [execPerson_body_parse_err env pool args v id w perr hp]
    simp [execGeneric, PersonVars.toVars, hp, Outcome.map]

theorem execMovie_refines_generic (env : Env) (pool : Pool) (args : Args) (v : MovieVars)
    (id : String) (w : World) :
    (execMovie.body env pool args v id w).map (fun r => (r.1, r.2.toVars)) =
      execGeneric env env.movie args v.toVars id w := by
  rcases hp : (env.parseUUID id).2 with _ | perr
  · rcases hq : (env.queryOne env.movie w.issued args.Query
      (v.params.set "id" (env.parseUUID id).1) v.movie).2 with _ | qerr
    · rcases hm : (env.movie.marshal (env.queryOne env.movie w.issued args.Query
        (v.params.set "id" (env.parseUUID id).1) v.movie).1).2 with _ | merr
      · rw [execMovie_body_ok env pool args v id w hp hq hm]
        simp [execGeneric, MovieVars.toVars, hp, hq, hm, Outcome.map]
        omega
      · rw [execMovie_body_marshal_err env pool args v id w merr hp hq hm]
        simp [execGeneric, MovieVars.toVars, hp, hq, hm, Outcome.map]
    · rw [execMovie_body_query_err env pool args v id w qerr hp hq]
      simp [execGeneric, MovieVars.toVars, hp, hq, Outcome.map]
  · rw [execMovie_body_parse_err env pool args v id w perr hp]
    simp [execGeneric, MovieVars.toVars, hp, Outcome.map]

theorem execUser_refines_generic (env : Env) (pool : Pool) (args : Args) (v : UserVars)
    (id : String) (w : World) :
    (execUser.body env pool args v id w).map (fun r => (r.1, r.2.toVars)) =
      execGeneric env env.user args v.toVars id w := by
  rcases hp : (env.parseUUID id).2 with _ | perr
  · rcases hq : (env.queryOne env.user w.issued args.Query
      (v.params.set "id" (env.parseUUID id).1) v.user).2 with _ | qerr
    · rcases hm : (env.user.marshal (env.queryOne env.user w.issued args.Query
        (v.params.set "id" (env.parseUUID id).1) v.user).1).2 with _ | merr
      · rw [execUser_body_ok env pool args v id w hp hq hm]
        simp [execGeneric, UserVars.toVars, hp, hq, hm, Outcome.map]
        omega
      · rw [execUser_body_marshal_err env pool args v id w merr hp hq hm]
        simp [execGeneric, UserVars.toVars, hp, hq, hm, Outcome.map]
    · rw [execUser_body_query_err env pool args v id w qerr hp hq]
      simp [execGeneric, UserVars.toVars, hp, hq, Outcome.map]
  · rw [execUser_body_parse_err env pool args v id w perr hp]
    simp [execGeneric, UserVars.toVars, hp, Outcome.map]


theorem Outcome.map_world {α β : Type} (f : α → β) (o : Outcome α) :
    (o.map f).world = o.world := by
  cases o <;> rfl

theorem Outcome.map_returned {α β : Type} (f : α → β) (o : Outcome α) :
    (o.map f).returned = o.returned := by
  cases o <;> rfl

theorem execGeneric_returned_trace {T : Type} (env : Env) (c : Codec T) (args : Args)
    (v : Vars T) (id : String) (w : World)
    (h : (execGeneric env c args v id w).returned = true) :
    emitted w (execGeneric env c args v id w) =
      structuredTrace args.Query (v.params.set "id" (env.parseUUID id).1) id := by
  obtain ⟨evs, htr, _, hiff⟩ := execGeneric_trace env c args v id w
  rw [emitted_of_trace w _ evs htr]
  exact hiff.mp h

theorem execPerson_returned_trace (env : Env) (pool : Pool) (args : Args) (v : PersonVars)
    (id : String) (w : World) (h : (execPerson.body env pool args v id w).returned = true) :
    emitted w (execPerson.body env pool args v id w) =
      structuredTrace args.Query (v.params.set "id" (env.parseUUID id).1) id := by
  have href := execPerson_refines_generic env pool args v id w
  have hw := Outcome.map_world (fun r : (Int × String) × PersonVars => (r.1, r.2.toVars))
    (execPerson.body env pool args v id w)
  have hr := Outcome.map_returned (fun r : (Int × String) × PersonVars => (r.1, r.2.toVars))
    (execPerson.body env pool args v id w)
  rw [href] at hw hr
  have := execGeneric_returned_trace env env.person args v.toVars id w (by rw [hr]; exact h)
  simp only [emitted, hw] at this ⊢
  exact this

theorem execMovie_returned_trace (env : Env) (pool : Pool) (args : Args) (v : MovieVars)
    (id : String) (w : World) (h : (execMovie.body env pool args v id w).returned = true) :
    emitted w (execMovie.body env pool args v id w) =
      structuredTrace args.Query (v.params.set "id" (env.parseUUID id).1) id := by
  have href := execMovie_refines_generic env pool args v id w
  have hw := Outcome.map_world (fun r : (Int × String) × MovieVars => (r.1, r.2.toVars))
    (execMovie.body env pool args v id w)
  have hr := Outcome.map_returned (fun r : (Int × String) × MovieVars => (r.1, r.2.toVars))
    (execMovie.body env pool args v id w)
  rw [href] at hw hr
  have := execGeneric_returned_trace env env.movie args v.toVars id w (by rw [hr]; exact h)
  simp only [emitted, hw] at this ⊢
  exact this

theorem execUser_returned_trace (env : Env) (pool : Pool) (args : Args) (v : UserVars)
    (id : String) (w : World) (h : (execUser.body env pool args v id w).returned = true) :
    emitted w (execUser.body env pool args v id w) =
      structuredTrace args.Query (v.params.set "id" (env.parseUUID id).1) id := by
  have href := execUser_refines_generic env pool args v id w
  have hw := Outcome.map_world (fun r : (Int × String) × UserVars => (r.1, r.2.toVars))
    (execUser.body env pool args v id w)
  have hr := Outcome.map_returned (fun r : (Int × String) × UserVars => (r.1, r.2.toVars))
    (execUser.body env pool args v id w)
  rw [href] at hw hr
  have := execGeneric_returned_trace env env.user args v.toVars id w (by rw [hr]; exact h)
  simp only [emitted, hw] at this ⊢
  exact this

/-- C9: `execPerson`, `execMovie` and `execUser` are instances of one generic executor
parameterised only by the decode target: on the same environment, pool, query text,
identifier, world and captured variables each of them gives the outcome of `execGeneric` at
its own decode target (same world, hence same trace and clock, same fatal message, same
returned pair, same variables afterwards). The generic executor makes its library calls in
the order parse, `time.Now`, one `QueryOne`, `json.Marshal`, `time.Since`: what it emits is
always a prefix of that list and is the whole list exactly when it returns. Hence the three
executors, holding the same parameter map and all returning, emit one and the same trace. -/
theorem structured_executors_are_generic (env : Env) (pool : Pool) (args : Args) (id : String)
    (w : World) :
    (∀ v : PersonVars,
      (execPerson.body env pool args v id w).map (fun r => (r.1, r.2.toVars)) =
        execGeneric env env.person args v.toVars id w) ∧
    (∀ v : MovieVars,
      (execMovie.body env pool args v id w).map (fun r => (r.1, r.2.toVars)) =
        execGeneric env env.movie args v.toVars id w) ∧
    (∀ v : UserVars,
      (execUser.body env pool args v id w).map (fun r => (r.1, r.2.toVars)) =
        execGeneric env env.user args v.toVars id w) ∧
    (∀ (T : Type) (c : Codec T) (v : Vars T),
      ∃ evs, (execGeneric env c args v id w).world.trace = w.trace ++ evs ∧
        evs <+: structuredTrace args.Query (v.params.set "id" (env.parseUUID id).1) id ∧
        ((execGeneric env c args v id w).returned = true ↔
          evs = structuredTrace args.Query (v.params.set "id" (env.parseUUID id).1) id)) ∧
    (∀ (vp : PersonVars) (vm : MovieVars) (vu : UserVars),
      vm.params = vp.params → vu.params = vp.params →
      (execPerson.body env pool args vp id w).returned = true →
      (execMovie.body env pool args vm id w).returned = true →
      (execUser.body env pool args vu id w).returned = true →
      emitted w (execPerson.body env pool args vp id w) =
        structuredTrace args.Query (vp.params.set "id" (env.parseUUID id).1) id ∧
      emitted w (execMovie.body env pool args vm id w) =
        emitted w (execPerson.body env pool args vp id w) ∧
      emitted w (execUser.body env pool args vu id w) =
        emitted w (execPerson.body env pool args vp id w)) := by
  refine ⟨fun v => execPerson_refines_generic env pool args v id w,
    fun v => execMovie_refines_generic env pool args v id w,
    fun v => execUser_refines_generic env pool args v id w,
    fun _ c v => execGeneric_trace env c args v id w, ?_⟩
  intro vp vm vu hm hu hrp hrm hru
  rw [execPerson_returned_trace env pool args vp id w hrp,
    execMovie_returned_trace env pool args vm id w hrm,
    execUser_returned_trace env pool args vu id w hru, hm, hu]
  exact ⟨rfl, rfl, rfl⟩

theorem structured_executors_are_generic_witness :
    emitted World.init (execMovie.body demoEnv benchPool ⟨"select Movie"⟩ MovieVars.init demoId
        World.init) =
      emitted World.init (execPerson.body demoEnv benchPool ⟨"select Movie"⟩ PersonVars.init
        demoId World.init) ∧
    emitted World.init (execUser.body demoEnv benchPool ⟨"select Movie"⟩ UserVars.init demoId
        World.init) =
      emitted World.init (execPerson.body demoEnv benchPool ⟨"select Movie"⟩ PersonVars.init
        demoId World.init) :=
  ((structured_executors_are_generic demoEnv benchPool ⟨"select Movie"⟩ demoId
    World.init).2.2.2.2 PersonVars.init MovieVars.init UserVars.init rfl rfl
    (by decide) (by decide) (by decide)).2

/-! ## The dispatch of `RepackWorker` -/

theorem RepackWorker_connect_err (env : Env) (args : Args) (w : World) (cerr : Err)
    (hconn : env.connectDSN "edgedb_bench" = some cerr) :
    RepackWorker env args w = .fatal cerr (w.connected env) := by
  simp only [RepackWorker, hconn, World.connected]

theorem RepackWorker_ret_world (env : Env) (args : Args) (w : World) (exec : Exec)
    (close : Close) (w1 : World) (h : RepackWorker env args w = .ret (exec, close) w1) :
    env.connectDSN "edgedb_bench" = none ∧ w1 = w.connected env := by
  rcases hconn : env.connectDSN "edgedb_bench" with _ | cerr
  · refine ⟨rfl, ?_⟩
    rw [RepackWorker_of_queryType env args w hconn] at h
    split_ifs at h <;> (injection h with _ h2; exact h2.symm)
  · rw [RepackWorker_connect_err env args w cerr hconn] at h
    exact absurd h (by simp)

theorem JSONWorker_ret_world (env : Env) (args : Args) (w : World) (exec : Exec)
    (close : Close) (w1 : World) (h : JSONWorker env args w = .ret (exec, close) w1) :
    env.connectDSN "edgedb_bench" = none ∧ w1 = w.connected env := by
  rcases hconn : env.connectDSN "edgedb_bench" with _ | cerr
  · refine ⟨rfl, ?_⟩
    simp only [JSONWorker, hconn] at h
    injection h with _ h2
    exact h2.symm
  · simp [JSONWorker, hconn] at h

/-- C2, as stated, fails: on the query text `select 1`, which contains none of the tags, with
a driver that connects, `RepackWorker` ends with `unknown query type ""` and its trace holds
the call of `edgedb.ConnectDSN`, made 7 ns of connection time earlier. -/
theorem RepackWorker_connects_before_unknown_type :
    noTag "select 1" ∧
    (RepackWorker demoEnv ⟨"select 1"⟩ World.init).fatalMsg? = some "unknown query type \"\"" ∧
    emitted World.init (RepackWorker demoEnv ⟨"select 1"⟩ World.init) =
      [.connectDSN "edgedb_bench"] ∧
    (RepackWorker demoEnv ⟨"select 1"⟩ World.init).world.clock = 7 := by
  decide

/-- C2, amended: `RepackWorker` opens the connection first and classifies the query text
afterwards. For every query text that contains none of the recognized tags it ends in
`log.Fatal` after exactly one library call, `edgedb.ConnectDSN`: with `unknown query type ""`
when the connection succeeded, with the connection error when it failed. No executor is
built and `pool.Close` is not called. -/
theorem RepackWorker_unknown_type_after_connect (env : Env) (args : Args) (w : World)
    (hno : noTag args.Query) :
    emitted w (RepackWorker env args w) = [.connectDSN "edgedb_bench"] ∧
    (env.connectDSN "edgedb_bench" = none →
      RepackWorker env args w = .fatal "unknown query type \"\"" (w.connected env)) ∧
    (∀ cerr, env.connectDSN "edgedb_bench" = some cerr →
      RepackWorker env args w = .fatal cerr (w.connected env)) := by
  refine ⟨?_, fun hconn => RepackWorker_no_tag env args w hconn hno,
    fun cerr hconn => RepackWorker_connect_err env args w cerr hconn⟩
  rcases hconn : env.connectDSN "edgedb_bench" with _ | cerr
  · rw [RepackWorker_no_tag env args w hconn hno]
    exact emitted_of_trace _ _ _ rfl
  · rw [RepackWorker_connect_err env args w cerr hconn]
    exact emitted_of_trace _ _ _ rfl

theorem RepackWorker_unknown_type_after_connect_witness :
    noTag "select 1" ∧
    emitted World.init (RepackWorker demoEnv ⟨"select 1"⟩ World.init) =
      [.connectDSN "edgedb_bench"] :=
  ⟨by decide,
    (RepackWorker_unknown_type_after_connect demoEnv ⟨"select 1"⟩ World.init (by decide)).1⟩

/-- C4: given a successful connection, `RepackWorker` returns an (executor, teardown) pair if
and only if `args.Query` contains at least one of the exact substrings `Person`, `Movie`,
`User`; for every other query text it ends in `log.Fatal` with `unknown query type ""` and
returns nothing. The empty text and the lower-case spellings are such texts. -/
theorem RepackWorker_returns_iff_tag (env : Env) (args : Args) (w : World)
    (hconn : env.connectDSN "edgedb_bench" = none) :
    ((∃ exec close w', RepackWorker env args w = .ret (exec, close) w') ↔
      (containsTag args.Query "Person" ∨ containsTag args.Query "Movie" ∨
        containsTag args.Query "User")) ∧
    (noTag args.Query →
      RepackWorker env args w = .fatal "unknown query type \"\"" (w.connected env) ∧
      (RepackWorker env args w).value? = none) ∧
    RepackWorker env ⟨""⟩ w = .fatal "unknown query type \"\"" (w.connected env) ∧
    RepackWorker env ⟨"select person, movie, user"⟩ w =
      .fatal "unknown query type \"\"" (w.connected env) := by
  refine ⟨⟨?_, ?_⟩, ?_, ?_, ?_⟩
  · rintro ⟨exec, close, w', h⟩
    by_contra hno
    rw [RepackWorker_no_tag env args w hconn hno] at h
    exact absurd h (by simp)
  · intro htag
    rw [RepackWorker_of_queryType env args w hconn]
    rcases queryType_of_tag args.Query htag with h | h | h
    · rw [if_pos h]; exact ⟨_, _, _, rfl⟩
    · by_cases h1 : String.mk (findString tags args.Query.data) = "Person"
      · rw [if_pos h1]; exact ⟨_, _, _, rfl⟩
      · rw [if_neg h1, if_pos h]; exact ⟨_, _, _, rfl⟩
    · by_cases h1 : String.mk (findString tags args.Query.data) = "Person"
      · rw [if_pos h1]; exact ⟨_, _, _, rfl⟩
      · by_cases h2 : String.mk (findString tags args.Query.data) = "Movie"
        · rw [if_neg h1, if_pos h2]; exact ⟨_, _, _, rfl⟩
        · rw [if_neg h1, if_neg h2, if_pos h]; exact ⟨_, _, _, rfl⟩
  · intro hno
    rw [RepackWorker_no_tag env args w hconn hno]
    exact ⟨rfl, rfl⟩
  · exact RepackWorker_no_tag env ⟨""⟩ w hconn (by decide)
  · exact RepackWorker_no_tag env ⟨"select person, movie, user"⟩ w hconn (by decide)

theorem RepackWorker_returns_iff_tag_witness :
    demoEnv.connectDSN "edgedb_bench" = none ∧
    ((∃ exec close w', RepackWorker demoEnv ⟨"select Movie"⟩ World.init =
        .ret (exec, close) w') ↔
      (containsTag "select Movie" "Person" ∨ containsTag "select Movie" "Movie" ∨
        containsTag "select Movie" "User")) :=
  ⟨rfl, (RepackWorker_returns_iff_tag demoEnv ⟨"select Movie"⟩ World.init rfl).1⟩

/-- C10: no two tags can start at the same index of a text; when `t` is the tag whose
occurrence starts at the smallest index of the query text, `FindString` returns `t`, for the
pattern as written and for every reordering of its alternatives; `RepackWorker` then returns
the executor of that tag (`execPerson`, `execMovie` or `execUser`). A query that mentions
`User` before `Movie` is dispatched to `execUser`. -/
theorem RepackWorker_dispatches_on_leftmost_tag (env : Env) (args : Args) (w : World)
    (hconn : env.connectDSN "edgedb_bench" = none) :
    (∀ a ∈ tags, ∀ b ∈ tags, ∀ s : List Char, a <+: s → b <+: s → a = b) ∧
    (∀ t ∈ tags, leftmostTag args.Query.data t →
      ∀ alts : List (List Char), alts.Perm tags → findString alts args.Query.data = t) ∧
    (leftmostTag args.Query.data "Person".data →
      RepackWorker env args w = .ret (execPerson benchPool args, ⟨benchPool⟩) (w.connected env)) ∧
    (leftmostTag args.Query.data "Movie".data →
      RepackWorker env args w = .ret (execMovie benchPool args, ⟨benchPool⟩) (w.connected env)) ∧
    (leftmostTag args.Query.data "User".data →
      RepackWorker env args w = .ret (execUser benchPool args, ⟨benchPool⟩) (w.connected env)) ∧
    RepackWorker env ⟨"select User with reviews of Movie"⟩ w =
      .ret (execUser benchPool ⟨"select User with reviews of Movie"⟩, ⟨benchPool⟩)
        (w.connected env) := by
  have hleft : ∀ t ∈ tags, leftmostTag args.Query.data t →
      findString tags args.Query.data = t := by
    rintro t ht ⟨i, hp, hmin⟩
    exact findString_leftmost tags_exclusive _ i t ht hp hmin
  refine ⟨tags_exclusive, ?_, ?_, ?_, ?_, ?_⟩
  · intro t ht hl alts hperm
    rw [findString_perm hperm, hleft t ht hl]
  · intro hl
    rw [RepackWorker_of_queryType env args w hconn,
      hleft _ (mem_tags.mpr (Or.inl rfl)) hl]
    rfl
  · intro hl
    rw [RepackWorker_of_queryType env args w hconn,
      hleft _ (mem_tags.mpr (Or.inr (Or.inl rfl))) hl]
    rfl
  · intro hl
    rw [RepackWorker_of_queryType env args w hconn,
      hleft _ (mem_tags.mpr (Or.inr (Or.inr rfl))) hl]
    rfl
  · rw [RepackWorker_of_queryType env _ w hconn]
    have : findString tags "select User with reviews of Movie".data = "User".data := by decide
    rw [this]
    rfl

theorem RepackWorker_dispatches_on_leftmost_tag_witness :
    demoEnv.connectDSN "edgedb_bench" = none ∧
    leftmostTag "select User with reviews of Movie".data "User".data ∧
    RepackWorker demoEnv ⟨"select User with reviews of Movie"⟩ World.init =
      .ret (execUser benchPool ⟨"select User with reviews of Movie"⟩, ⟨benchPool⟩)
        (World.init.connected demoEnv) :=
  have hl : leftmostTag "select User with reviews of Movie".data "User".data :=
    ⟨7, by decide, by decide⟩
  ⟨rfl, hl, (RepackWorker_dispatches_on_leftmost_tag demoEnv
    ⟨"select User with reviews of Movie"⟩ World.init rfl).2.2.2.2.1 hl⟩

/-! ## One connection per run -/

theorem Exec.expectedTrace_quiet (env : Env) (e : Exec) (id : String) (w : World) :
    ∀ ev ∈ e.expectedTrace env id w, ev.isConnect = false ∧ ev.isClose = false := by
  unfold Exec.expectedTrace
  cases e.family <;> dsimp only <;> split <;> simp [Event.isConnect, Event.isClose]

theorem Exec.runAll_trace (env : Env) :
    ∀ (ids : List String) (e : Exec) (w : World),
      ∃ evs, (e.runAll env ids w).world.trace = w.trace ++ evs ∧
        ∀ ev ∈ evs, ev.isConnect = false ∧ ev.isClose = false := by
  intro ids
  induction ids with
  | nil =>
    intro e w
    exact ⟨[], by simp [Exec.runAll, Outcome.world], by simp⟩
  | cons id ids ih =>
    intro e w
    have hc := Exec.call_world_trace env e id w
    have hquiet := Exec.expectedTrace_quiet env e id w
    unfold Exec.runAll
    cases hcall : e.call env id w with
    | fatal m w1 =>
      rw [hcall] at hc
      exact ⟨_, hc, hquiet⟩
    | ret a w1 =>
      rw [hcall] at hc
      obtain ⟨r, e1⟩ := a
      obtain ⟨evs, hevs, hq2⟩ := ih e1 w1
      refine ⟨e.expectedTrace env id w ++ evs, ?_, ?_⟩
      · have hw1 : w1.trace = w.trace ++ e.expectedTrace env id w := hc
        cases hrun : Exec.runAll env e1 ids w1 with
        | fatal m w2 =>
          rw [hrun] at hevs
          simp only [hrun, Outcome.world] at hevs ⊢
          rw [hevs, hw1, List.append_assoc]
        | ret b w2 =>
          rw [hrun] at hevs
          obtain ⟨rs, e2⟩ := b
          simp only [hrun, Outcome.world] at hevs ⊢
          rw [hevs, hw1, List.append_assoc]
      · intro ev hev
        rcases List.mem_append.mp hev with h | h
        · exact hquiet ev h
        · exact hq2 ev h

theorem Exec.runAll_length (env : Env) :
    ∀ (ids : List String) (e : Exec) (w : World) (rs : List (Int × String)) (e' : Exec)
      (w' : World), e.runAll env ids w = .ret (rs, e') w' → rs.length = ids.length := by
  intro ids
  induction ids with
  | nil =>
    intro e w rs e' w' h
    simp only [Exec.runAll] at h
    injection h with h1 _
    injection h1 with h2 _
    rw [← h2]
    rfl
  | cons id ids ih =>
    intro e w rs e' w' h
    unfold Exec.runAll at h
    cases hcall : e.call env id w with
    | fatal m w1 => rw [hcall] at h; exact absurd h (by simp)
    | ret a w1 =>
      rw [hcall] at h
      obtain ⟨r, e1⟩ := a
      cases hrun : Exec.runAll env e1 ids w1 with
      | fatal m w2 => simp [hrun] at h
      | ret b w2 =>
        obtain ⟨rs2, e2⟩ := b
        simp only [hrun] at h
        injection h with h1 _
        injection h1 with h2 _
        rw [← h2]
        simp [ih e1 w1 rs2 e2 w2 hrun]

/-- C6: for both workers and every number of identifiers, a run made of one successful
construction, one successful invocation per identifier and one teardown call has in its
trace exactly one connect event and exactly one `pool.Close` event, the `Close` being the
last event (whatever `pool.Close` returns); one pair is returned per identifier; and no
invocation of an executor, successful or fatal, opens or closes the connection. -/
theorem session_one_connect_one_close
    (worker : Env → Args → World → Outcome (Exec × Close))
    (hworker : worker = RepackWorker ∨ worker = JSONWorker)
    (env : Env) (args : Args) (ids : List String) (w : World)
    (exec : Exec) (close : Close) (w1 : World)
    (hbuild : worker env args w = .ret (exec, close) w1)
    (rs : List (Int × String)) (e' : Exec) (w2 : World)
    (hrun : exec.runAll env ids w1 = .ret (rs, e') w2) :
    rs.length = ids.length ∧
    (emitted w (session worker env args ids w)).countP Event.isConnect = 1 ∧
    (emitted w (session worker env args ids w)).countP Event.isClose = 1 ∧
    (emitted w (session worker env args ids w)).getLast? = some .poolClose ∧
    (∀ (e : Exec) (id : String) (w0 : World), ∀ ev ∈ emitted w0 (e.call env id w0),
      ev.isConnect = false ∧ ev.isClose = false) := by
  have hw1 : w1 = w.connected env := by
    rcases hworker with h | h
    · subst h; exact (RepackWorker_ret_world env args w exec close w1 hbuild).2
    · subst h; exact (JSONWorker_ret_world env args w exec close w1 hbuild).2
  obtain ⟨evs, hevs, hquiet⟩ := Exec.runAll_trace env ids exec w1
  rw [hrun] at hevs
  simp only [Outcome.world] at hevs
  have htrace : (session worker env args ids w).world.trace =
      w.trace ++ (Event.connectDSN "edgedb_bench" :: (evs ++ [Event.poolClose])) := by
    simp only [session, hbuild, hrun, Close.call]
    cases env.closePool <;>
      simp [Outcome.map, Outcome.world, hevs, hw1, World.connected]
  have hc0 : evs.countP Event.isConnect = 0 :=
    List.countP_eq_zero.mpr (fun ev hev => by simp [(hquiet ev hev).1])
  have hc1 : evs.countP Event.isClose = 0 :=
    List.countP_eq_zero.mpr (fun ev hev => by simp [(hquiet ev hev).2])
  rw [emitted_of_trace w _ _ htrace]
  refine ⟨Exec.runAll_length env ids exec w1 rs e' w2 hrun, ?_, ?_, ?_, ?_⟩
  · simp [List.countP_cons, List.countP_append, hc0, Event.isConnect]
  · simp [List.countP_cons, List.countP_append, hc1, Event.isClose]
  · rw [← List.cons_append, List.getLast?_append]
    simp
  · intro e id w0 ev hev
    rw [emitted_of_trace w0 _ _ (Exec.call_world_trace env e id w0)] at hev
    exact Exec.expectedTrace_quiet env e id w0 ev hev

theorem session_one_connect_one_close_witness :
    (emitted World.init (session JSONWorker demoEnv ⟨"select User"⟩ [demoId, demoId]
      World.init)).countP Event.isConnect = 1 ∧
    (emitted World.init (session JSONWorker demoEnv ⟨"select User"⟩ [demoId, demoId]
      World.init)).countP Event.isClose = 1 ∧
    (emitted World.init (session JSONWorker demoEnv ⟨"select User"⟩ [demoId, demoId]
      World.init)).getLast? = some .poolClose :=
  have h := session_one_connect_one_close JSONWorker (Or.inr rfl) demoEnv ⟨"select User"⟩
    [demoId, demoId] World.init (.json benchPool ⟨"select User"⟩ JSONVars.init) ⟨benchPool⟩
    (World.init.connected demoEnv) rfl
    [(10, "first"), (10, "later")]
    (.json benchPool ⟨"select User"⟩ ⟨none, [("id", ⟨36⟩)], "later", 19, 10⟩)
    ⟨29, 2, [.connectDSN "edgedb_bench", .parseUUID demoId, .timeNow,
      .queryOneJSON "select User" [("id", ⟨36⟩)], .timeSince, .parseUUID demoId, .timeNow,
      .queryOneJSON "select User" [("id", ⟨36⟩)], .timeSince]⟩ rfl
  ⟨h.2.1, h.2.2.1, h.2.2.2.1⟩

/-! ## What the payload of a call depends on -/

theorem Params.set_of_ok {ps : Params} (h : ps.ok) (u : UUID) :
    ps.set "id" u = [("id", u)] := by
  rcases h with rfl | ⟨u0, rfl⟩
  · rfl
  · simp [Params.set]

theorem Params.ok_set_of_ok {ps : Params} (h : ps.ok) (u : UUID) : (ps.set "id" u).ok := by
  rw [Params.set_of_ok h u]
  exact Or.inr ⟨u, rfl⟩

theorem Outcome.map_eq_ret {α β : Type} {f : α → β} {o : Outcome α} {b : β} {w : World}
    (h : o.map f = .ret b w) : ∃ a, o = .ret a w ∧ f a = b := by
  cases o with
  | ret a w0 =>
    simp only [Outcome.map] at h
    injection h with h1 h2
    subst h2
    exact ⟨a, rfl, h1⟩
  | fatal m w0 => simp [Outcome.map] at h

theorem Outcome.value?_map {α β : Type} (f : α → β) (o : Outcome α) :
    (o.map f).value? = o.value?.map f := by
  cases o <;> rfl

theorem execPerson_body_payload (env : Env) (hover : env.overwrites) (pool : Pool)
    (args : Args) (v : PersonVars) (id : String) (w : World) (hps : v.params.ok) :
    (execPerson.body env pool args v id w).value?.map (fun r => r.1.2) =
      Family.payload? env .person args.Query id w.issued := by
  have hset := Params.set_of_ok hps (env.parseUUID id).1
  rcases hp : (env.parseUUID id).2 with _ | perr
  · cases hr : env.respond w.issued args.Query [("id", (env.parseUUID id).1)] with
    | error rerr =>
      have hq : (env.queryOne env.person w.issued args.Query
        (v.params.set "id" (env.parseUUID id).1) v.person).2 = some rerr := by
        rw [hset]; simp [Env.queryOne, hr]
      rw [execPerson_body_query_err env pool args v id w rerr hp hq]
      simp [Outcome.value?, Family.payload?, hp, hr]
    | ok row =>
      have hqe : (env.queryOne env.person w.issued args.Query
        (v.params.set "id" (env.parseUUID id).1) v.person) = env.person.decode row Person.zero := by
        rw [hset]; simp only [Env.queryOne, hr]; exact hover.1 row _ _
      rcases hq : (env.person.decode row Person.zero).2 with _ | qerr
      · rcases hm : (env.person.marshal (env.person.decode row Person.zero).1).2 with _ | merr
        · rw [execPerson_body_ok env pool args v id w hp (by rw [hqe]; exact hq)
            (by rw [hqe]; exact hm)]
          simp [Outcome.value?, Family.payload?, Family.result?, hp, hr, hq, hm, hqe]
        · rw [execPerson_body_marshal_err env pool args v id w merr hp (by rw [hqe]; exact hq)
            (by rw [hqe]; exact hm)]
          simp [Outcome.value?, Family.payload?, Family.result?, hp, hr, hq, hm]
      · rw [execPerson_body_query_err env pool args v id w qerr hp (by rw [hqe]; exact hq)]
        simp [Outcome.value?, Family.payload?, Family.result?, hp, hr, hq]
  · rw [execPerson_body_parse_err env pool args v id w perr hp]
    simp [Outcome.value?, Family.payload?, hp]

theorem execPerson_body_next (env : Env) (pool : Pool) (args : Args) (v v' : PersonVars)
    (id : String) (w w' : World) (r : Int × String)
    (h : execPerson.body env pool args v id w = .ret (r, v') w') :
    v'.params = v.params.set "id" (env.parseUUID id).1 ∧ w'.issued = w.issued + 1 := by
  rcases hp : (env.parseUUID id).2 with _ | perr
  · rcases hq : (env.queryOne env.person w.issued args.Query
        (v.params.set "id" (env.parseUUID id).1) v.person).2 with _ | qerr
    · rcases hm : (env.person.marshal (env.queryOne env.person w.issued args.Query
        (v.params.set "id" (env.parseUUID id).1) v.person).1).2 with _ | merr
      · rw [execPerson_body_ok env pool args v id w hp hq hm] at h
        injection h with h1 h2
        injection h1 with _ h3
        subst h2 h3
        exact ⟨rfl, rfl⟩
      · rw [execPerson_body_marshal_err env pool args v id w merr hp hq hm] at h
        exact absurd h (by simp)
    · rw [execPerson_body_query_err env pool args v id w qerr hp hq] at h
      exact absurd h (by simp)
  · rw [execPerson_body_parse_err env pool args v id w perr hp] at h
    exact absurd h (by simp)

theorem execMovie_body_payload (env : Env) (hover : env.overwrites) (pool : Pool)
    (args : Args) (v : MovieVars) (id : String) (w : World) (hps : v.params.ok) :
    (execMovie.body env pool args v id w).value?.map (fun r => r.1.2) =
      Family.payload? env .movie args.Query id w.issued := by
  have hset := Params.set_of_ok hps (env.parseUUID id).1
  rcases hp : (env.parseUUID id).2 with _ | perr
  · cases hr : env.respond w.issued args.Query [("id", (env.parseUUID id).1)] with
    | error rerr =>
      have hq : (env.queryOne env.movie w.issued args.Query
        (v.params.set "id" (env.parseUUID id).1) v.movie).2 = some rerr := by
        rw [hset]; simp [Env.queryOne, hr]
      rw [execMovie_body_query_err env pool args v id w rerr hp hq]
      simp [Outcome.value?, Family.payload?, hp, hr]
    | ok row =>
      have hqe : (env.queryOne env.movie w.issued args.Query
        (v.params.set "id" (env.parseUUID id).1) v.movie) = env.movie.decode row Movie.zero := by
        rw [hset]; simp only [Env.queryOne, hr]; exact hover.2.1 row _ _
      rcases hq : (env.movie.decode row Movie.zero).2 with _ | qerr
      · rcases hm : (env.movie.marshal (env.movie.decode row Movie.zero).1).2 with _ | merr
        · rw [execMovie_body_ok env pool args v id w hp (by rw [hqe]; exact hq)
            (by rw [hqe]; exact hm)]
          simp [Outcome.value?, Family.payload?, Family.result?, hp, hr, hq, hm, hqe]
        · rw [execMovie_body_marshal_err env pool args v id w merr hp (by rw [hqe]; exact hq)
            (by rw [hqe]; exact hm)]
          simp [Outcome.value?, Family.payload?, Family.result?, hp, hr, hq, hm]
      · rw [execMovie_body_query_err env pool args v id w qerr hp (by rw [hqe]; exact hq)]
        simp [Outcome.value?, Family.payload?, Family.result?, hp, hr, hq]
  · rw [execMovie_body_parse_err env pool args v id w perr hp]
    simp [Outcome.value?, Family.payload?, hp]

theorem execMovie_body_next (env : Env) (pool : Pool) (args : Args) (v v' : MovieVars)
    (id : String) (w w' : World) (r : Int × String)
    (h : execMovie.body env pool args v id w = .ret (r, v') w') :
    v'.params = v.params.set "id" (env.parseUUID id).1 ∧ w'.issued = w.issued + 1 := by
  rcases hp : (env.parseUUID id).2 with _ | perr
  · rcases hq : (env.queryOne env.movie w.issued args.Query
        (v.params.set "id" (env.parseUUID id).1) v.movie).2 with _ | qerr
    · rcases hm : (env.movie.marshal (env.queryOne env.movie w.issued args.Query
        (v.params.set "id" (env.parseUUID id).1) v.movie).1).2 with _ | merr
      · rw [execMovie_body_ok env pool args v id w hp hq hm] at h
        injection h with h1 h2
        injection h1 with _ h3
        subst h2 h3
        exact ⟨rfl, rfl⟩
      · rw [execMovie_body_marshal_err env pool args v id w merr hp hq hm] at h
        exact absurd h (by simp)
    · rw [execMovie_body_query_err env pool args v id w qerr hp hq] at h
      exact absurd h (by simp)
  · rw [execMovie_body_parse_err env pool args v id w perr hp] at h
    exact absurd h (by simp)

theorem execUser_body_payload (env : Env) (hover : env.overwrites) (pool : Pool)
    (args : Args) (v : UserVars) (id : String) (w : World) (hps : v.params.ok) :
    (execUser.body env pool args v id w).value?.map (fun r => r.1.2) =
      Family.payload? env .user args.Query id w.issued := by
  have hset := Params.set_of_ok hps (env.parseUUID id).1
  rcases hp : (env.parseUUID id).2 with _ | perr
  · cases hr : env.respond w.issued args.Query [("id", (env.parseUUID id).1)] with
    | error rerr =>
      have hq : (env.queryOne env.user w.issued args.Query
        (v.params.set "id" (env.parseUUID id).1) v.user).2 = some rerr := by
        rw [hset]; simp [Env.queryOne, hr]
      rw [execUser_body_query_err env pool args v id w rerr hp hq]
      simp [Outcome.value?, Family.payload?, hp, hr]
    | ok row =>
      have hqe : (env.queryOne env.user w.issued args.Query
        (v.params.set "id" (env.parseUUID id).1) v.user) = env.user.decode row User.zero := by
        rw [hset]; simp only [Env.queryOne, hr]; exact hover.2.2.1 row _ _
      rcases hq : (env.user.decode row User.zero).2 with _ | qerr
      · rcases hm : (env.user.marshal (env.user.decode row User.zero).1).2 with _ | merr
        · rw [execUser_body_ok env pool args v id w hp (by rw [hqe]; exact hq)
            (by rw [hqe]; exact hm)]
          simp [Outcome.value?, Family.payload?, Family.result?, hp, hr, hq, hm, hqe]
        · rw [execUser_body_marshal_err env pool args v id w merr hp (by rw [hqe]; exact hq)
            (by rw [hqe]; exact hm)]
          simp [Outcome.value?, Family.payload?, Family.result?, hp, hr, hq, hm]
      · rw [execUser_body_query_err env pool args v id w qerr hp (by rw [hqe]; exact hq)]
        simp [Outcome.value?, Family.payload?, Family.result?, hp, hr, hq]
  · rw [execUser_body_parse_err env pool args v id w perr hp]
    simp [Outcome.value?, Family.payload?, hp]

theorem execUser_body_next (env : Env) (pool : Pool) (args : Args) (v v' : UserVars)
    (id : String) (w w' : World) (r : Int × String)
    (h : execUser.body env pool args v id w = .ret (r, v') w') :
    v'.params = v.params.set "id" (env.parseUUID id).1 ∧ w'.issued = w.issued + 1 := by
  rcases hp : (env.parseUUID id).2 with _ | perr
  · rcases hq : (env.queryOne env.user w.issued args.Query
        (v.params.set "id" (env.parseUUID id).1) v.user).2 with _ | qerr
    · rcases hm : (env.user.marshal (env.queryOne env.user w.issued args.Query
        (v.params.set "id" (env.parseUUID id).1) v.user).1).2 with _ | merr
      · rw [execUser_body_ok env pool args v id w hp hq hm] at h
        injection h with h1 h2
        injection h1 with _ h3
        subst h2 h3
        exact ⟨rfl, rfl⟩
      · rw [execUser_body_marshal_err env pool args v id w merr hp hq hm] at h
        exact absurd h (by simp)
    · rw [execUser_body_query_err env pool args v id w qerr hp hq] at h
      exact absurd h (by simp)
  · rw [execUser_body_parse_err env pool args v id w perr hp] at h
    exact absurd h (by simp)

theorem JSONWorker_body_payload (env : Env) (hover : env.overwrites) (pool : Pool)
    (args : Args) (v : JSONVars) (id : String) (w : World) (hps : v.params.ok) :
    (JSONWorker.body env pool args v id w).value?.map (fun r => r.1.2) =
      Family.payload? env .json args.Query id w.issued := by
  have hset := Params.set_of_ok hps (env.parseUUID id).1
  rcases hp : (env.parseUUID id).2 with _ | perr
  · cases hr : env.respond w.issued args.Query [("id", (env.parseUUID id).1)] with
    | error rerr =>
      have hq : (env.queryOneJSON w.issued args.Query
        (v.params.set "id" (env.parseUUID id).1) v.rsp).2 = some rerr := by
        rw [hset]; simp [Env.queryOneJSON, hr]
      rw [JSONWorker_body_query_err env pool args v id w rerr hp hq]
      simp [Outcome.value?, Family.payload?, hp, hr]
    | ok row =>
      have hqe : (env.queryOneJSON w.issued args.Query
        (v.params.set "id" (env.parseUUID id).1) v.rsp) = env.decodeJSON row "" := by
        rw [hset]; simp only [Env.queryOneJSON, hr]; exact hover.2.2.2 row _ _
      rcases hq : (env.decodeJSON row "").2 with _ | qerr
      · rw [JSONWorker_body_ok env pool args v id w hp (by rw [hqe]; exact hq)]
        simp [Outcome.value?, Family.payload?, Family.result?, hp, hr, hq, hqe]
      · rw [JSONWorker_body_query_err env pool args v id w qerr hp (by rw [hqe]; exact hq)]
        simp [Outcome.value?, Family.payload?, Family.result?, hp, hr, hq]
  · rw [JSONWorker_body_parse_err env pool args v id w perr hp]
    simp [Outcome.value?, Family.payload?, hp]

theorem JSONWorker_body_next (env : Env) (pool : Pool) (args : Args) (v v' : JSONVars)
    (id : String) (w w' : World) (r : Int × String)
    (h : JSONWorker.body env pool args v id w = .ret (r, v') w') :
    v'.params = v.params.set "id" (env.parseUUID id).1 ∧ w'.issued = w.issued + 1 := by
  rcases hp : (env.parseUUID id).2 with _ | perr
  · rcases hq : (env.queryOneJSON w.issued args.Query
        (v.params.set "id" (env.parseUUID id).1) v.rsp).2 with _ | qerr
    · rw [JSONWorker_body_ok env pool args v id w hp hq] at h
      injection h with h1 h2
      injection h1 with _ h3
      subst h2 h3
      exact ⟨rfl, rfl⟩
    · rw [JSONWorker_body_query_err env pool args v id w qerr hp hq] at h
      exact absurd h (by simp)
  · rw [JSONWorker_body_parse_err env pool args v id w perr hp] at h
    exact absurd h (by simp)

theorem Exec.call_payload (env : Env) (hover : env.overwrites) (e : Exec) (id : String)
    (w : World) (hps : e.params.ok) :
    (e.call env id w).value?.map (fun r => r.1.2) =
      Family.payload? env e.family e.args.Query id w.issued := by
  cases e with
  | person pool args v =>
    simp only [Exec.call, Outcome.value?_map, Option.map_map, Exec.family, Exec.args]
    exact execPerson_body_payload env hover pool args v id w hps
  | movie pool args v =>
    simp only [Exec.call, Outcome.value?_map, Option.map_map, Exec.family, Exec.args]
    exact execMovie_body_payload env hover pool args v id w hps
  | user pool args v =>
    simp only [Exec.call, Outcome.value?_map, Option.map_map, Exec.family, Exec.args]
    exact execUser_body_payload env hover pool args v id w hps
  | json pool args v =>
    simp only [Exec.call, Outcome.value?_map, Option.map_map, Exec.family, Exec.args]
    exact JSONWorker_body_payload env hover pool args v id w hps

theorem Exec.call_next (env : Env) (e e' : Exec) (id : String) (w w' : World)
    (r : Int × String) (h : e.call env id w = .ret (r, e') w') :
    e'.family = e.family ∧ e'.args = e.args ∧
      e'.params = e.params.set "id" (env.parseUUID id).1 ∧ w'.issued = w.issued + 1 := by
  cases e with
  | person pool args v =>
    obtain ⟨a, ha, hf⟩ := Outcome.map_eq_ret h
    obtain ⟨r0, v0⟩ := a
    injection hf with _ h2
    subst h2
    have := execPerson_body_next env pool args v v0 id w w' r0 ha
    exact ⟨rfl, rfl, this.1, this.2⟩
  | movie pool args v =>
    obtain ⟨a, ha, hf⟩ := Outcome.map_eq_ret h
    obtain ⟨r0, v0⟩ := a
    injection hf with _ h2
    subst h2
    have := execMovie_body_next env pool args v v0 id w w' r0 ha
    exact ⟨rfl, rfl, this.1, this.2⟩
  | user pool args v =>
    obtain ⟨a, ha, hf⟩ := Outcome.map_eq_ret h
    obtain ⟨r0, v0⟩ := a
    injection hf with _ h2
    subst h2
    have := execUser_body_next env pool args v v0 id w w' r0 ha
    exact ⟨rfl, rfl, this.1, this.2⟩
  | json pool args v =>
    obtain ⟨a, ha, hf⟩ := Outcome.map_eq_ret h
    obtain ⟨r0, v0⟩ := a
    injection hf with _ h2
    subst h2
    have := JSONWorker_body_next env pool args v v0 id w w' r0 ha
    exact ⟨rfl, rfl, this.1, this.2⟩

theorem Exec.runAll_next (env : Env) :
    ∀ (ids : List String) (e e' : Exec) (w w' : World) (rs : List (Int × String)),
      e.runAll env ids w = .ret (rs, e') w' → e.params.ok →
      e'.family = e.family ∧ e'.args = e.args ∧ e'.params.ok ∧
        w'.issued = w.issued + ids.length := by
  intro ids
  induction ids with
  | nil =>
    intro e e' w w' rs h hok
    simp only [Exec.runAll] at h
    injection h with h1 h2
    injection h1 with _ h3
    subst h2 h3
    exact ⟨rfl, rfl, hok, rfl⟩
  | cons id ids ih =>
    intro e e' w w' rs h hok
    unfold Exec.runAll at h
    cases hcall : e.call env id w with
    | fatal m w1 => rw [hcall] at h; exact absurd h (by simp)
    | ret a w1 =>
      rw [hcall] at h
      obtain ⟨r, e1⟩ := a
      have hn := Exec.call_next env e e1 id w w1 r hcall
      cases hrun : Exec.runAll env e1 ids w1 with
      | fatal m w2 => simp [hrun] at h
      | ret b w2 =>
        obtain ⟨rs2, e2⟩ := b
        simp only [hrun] at h
        injection h with h1 h2
        injection h1 with _ h3
        subst h2 h3
        have hi := ih e1 e2 w1 w2 rs2 hrun (by rw [hn.2.2.1]; exact Params.ok_set_of_ok hok _)
        refine ⟨hi.1.trans hn.1, hi.2.1.trans hn.2.1, hi.2.2.1, ?_⟩
        rw [hi.2.2.2, hn.2.2.2, List.length_cons]
        omega

theorem Family.payloadOf_of_result? (env : Env) (f : Family) (row : Row) (p : String)
    (h : f.result? env row = some p) : p = f.payloadOf env row := by
  cases f <;> simp only [Family.result?, Family.payloadOf] at h ⊢ <;> split at h <;>
    first
    | (injection h with h; exact h.symm)
    | exact absurd h (by simp)

theorem Family.payload?_some (env : Env) (f : Family) (query id : String) (n : Nat)
    (p : String) (h : f.payload? env query id n = some p) :
    ∃ row, env.respond n query [("id", (env.parseUUID id).1)] = .ok row ∧
      p = f.payloadOf env row := by
  unfold Family.payload? at h
  split at h
  · exact absurd h (by simp)
  · split at h
    · exact absurd h (by simp)
    · rename_i row hr
      exact ⟨row, hr, Family.payloadOf_of_result? env f row p h⟩

theorem Family.payload?_congr (env1 env2 : Env) (hsame : env1.sameCodecs env2) (f : Family)
    (query id : String) (n1 n2 : Nat)
    (hresp : env1.respond n1 query [("id", (env1.parseUUID id).1)] =
      env2.respond n2 query [("id", (env1.parseUUID id).1)]) :
    f.payload? env1 query id n1 = f.payload? env2 query id n2 := by
  obtain ⟨hpu, hpe, hmo, hus, hdj⟩ := hsame
  have hres : ∀ row, f.result? env1 row = f.result? env2 row := by
    intro row
    cases f <;> simp only [Family.result?, hpe, hmo, hus, hdj]
  unfold Family.payload?
  rw [← hpu, ← hresp]
  cases (env1.parseUUID id).2 with
  | some _ => rfl
  | none =>
    cases env1.respond n1 query [("id", (env1.parseUUID id).1)] with
    | error _ => rfl
    | ok row => exact hres row

theorem Env.overwrites_of_sameCodecs (env1 env2 : Env) (hsame : env1.sameCodecs env2)
    (hover : env1.overwrites) : env2.overwrites := by
  obtain ⟨_, hpe, hmo, hus, hdj⟩ := hsame
  unfold Env.overwrites at hover ⊢
  rw [← hpe, ← hmo, ← hus, ← hdj]
  exact hover

theorem Exec.expectedTrace_query (env : Env) (e : Exec) (id : String) (w : World)
    (hps : e.params.ok) :
    (∀ ev ∈ e.expectedTrace env id w, ev.isQuery = true → ev = e.queryEvent env id) ∧
    ((env.parseUUID id).2 = none → e.queryEvent env id ∈ e.expectedTrace env id w) ∧
    (e.expectedTrace env id w).countP Event.isQuery ≤ 1 := by
  have hset := Params.set_of_ok hps (env.parseUUID id).1
  unfold Exec.expectedTrace Exec.queryEvent
  rw [hset]
  refine ⟨?_, ?_, ?_⟩
  · cases e.family <;> dsimp only <;> split <;> simp [Event.isQuery]
  · intro hp
    cases e.family <;> dsimp only <;> split <;> simp_all
  · cases e.family <;> dsimp only <;> split <;> simp [List.countP_cons, Event.isQuery]

/-- C8: one executor instance, fresh from its worker, is called on the identifiers `ids1`
and then on `id`; in another history the same fresh instance is called on `ids2` and then on
`id`, against a server that may have answered the earlier queries differently. Both
environments parse, decode and marshal alike, the decode fully overwrites its target and the
server gives the same answer to the last query in both histories. Then, in the call on `id`:
the only query sent carries the parameter map with exactly the key `id` bound to the parse of
`id` (and it is sent whenever `id` parses); the payload is a function of `id` and of the
answer to that query alone, namely the serialisation of that row decoded on its own; and the
two histories give the same payload (or both give none). -/
theorem kth_payload_reflects_kth_call (env1 env2 : Env) (hsame : env1.sameCodecs env2)
    (hover : env1.overwrites) (e0 : Exec) (hfresh : e0.params = [])
    (ids1 ids2 : List String) (id : String) (w1 w2 : World)
    (rs1 : List (Int × String)) (e1 : Exec) (u1 : World)
    (h1 : e0.runAll env1 ids1 w1 = .ret (rs1, e1) u1)
    (rs2 : List (Int × String)) (e2 : Exec) (u2 : World)
    (h2 : e0.runAll env2 ids2 w2 = .ret (rs2, e2) u2)
    (hresp : env1.respond u1.issued e0.args.Query [("id", (env1.parseUUID id).1)] =
      env2.respond u2.issued e0.args.Query [("id", (env1.parseUUID id).1)]) :
    u1.issued = w1.issued + ids1.length ∧
    (∀ ev ∈ emitted u1 (e1.call env1 id u1), ev.isQuery = true → ev = e0.queryEvent env1 id) ∧
    ((env1.parseUUID id).2 = none →
      e0.queryEvent env1 id ∈ emitted u1 (e1.call env1 id u1)) ∧
    (e1.call env1 id u1).value?.map (fun r => r.1.2) =
      e0.family.payload? env1 e0.args.Query id u1.issued ∧
    (∀ payload, (e1.call env1 id u1).value?.map (fun r => r.1.2) = some payload →
      ∃ row, env1.respond u1.issued e0.args.Query [("id", (env1.parseUUID id).1)] = .ok row ∧
        payload = e0.family.payloadOf env1 row) ∧
    (e1.call env1 id u1).value?.map (fun r => r.1.2) =
      (e2.call env2 id u2).value?.map (fun r => r.1.2) := by
  have hok0 : e0.params.ok := Or.inl hfresh
  obtain ⟨hf1, ha1, hp1, hi1⟩ := Exec.runAll_next env1 ids1 e0 e1 w1 u1 rs1 h1 hok0
  obtain ⟨hf2, ha2, hp2, _⟩ := Exec.runAll_next env2 ids2 e0 e2 w2 u2 rs2 h2 hok0
  have hq := Exec.expectedTrace_query env1 e1 id u1 hp1
  have hev : e1.queryEvent env1 id = e0.queryEvent env1 id := by
    simp only [Exec.queryEvent, hf1, ha1]
  have hpay1 := Exec.call_payload env1 hover e1 id u1 hp1
  have hpay2 := Exec.call_payload env2 (Env.overwrites_of_sameCodecs env1 env2 hsame hover)
    e2 id u2 hp2
  rw [hf1, ha1] at hpay1
  rw [hf2, ha2] at hpay2
  rw [emitted_of_trace u1 _ _ (Exec.call_world_trace env1 e1 id u1), ← hev]
  refine ⟨hi1, hq.1, hq.2.1, hpay1, ?_, ?_⟩
  · intro payload hpl
    rw [hpay1] at hpl
    exact Family.payload?_some env1 e0.family e0.args.Query id u1.issued payload hpl
  · rw [hpay1, hpay2]
    exact Family.payload?_congr env1 env2 hsame e0.family e0.args.Query id u1.issued u2.issued
      hresp

theorem kth_payload_reflects_kth_call_witness :
    ((Exec.runAll demoEnv (execPerson benchPool ⟨"select Person"⟩) [demoId, demoId]
        World.init).value?.map (fun r => r.1.map (fun p => p.2))) = some ["first", "later"] ∧
    ((Exec.runAll demoEnvOther (execPerson benchPool ⟨"select Person"⟩) [demoId2, demoId]
        World.init).value?.map (fun r => r.1.map (fun p => p.2))) = some ["other", "later"] ∧
    ((Exec.person benchPool ⟨"select Person"⟩
        ⟨[("id", ⟨36⟩)], Person.mk UUID.zero "first" "" "" [] [], 1, 13, none, "first"⟩).call
      demoEnv demoId ⟨14, 1, structuredTrace "select Person" [("id", ⟨36⟩)] demoId⟩).value?.map
        (fun r => r.1.2) =
    ((Exec.person benchPool ⟨"select Person"⟩
        ⟨[("id", ⟨36⟩)], Person.mk UUID.zero "other" "" "" [] [], 1, 13, none, "other"⟩).call
      demoEnvOther demoId
        ⟨14, 1, structuredTrace "select Person" [("id", ⟨36⟩)] demoId2⟩).value?.map
        (fun r => r.1.2) :=
  ⟨by decide, by decide,
    (kth_payload_reflects_kth_call demoEnv demoEnvOther ⟨rfl, rfl, rfl, rfl, rfl⟩
      ⟨fun _ _ _ => rfl, fun _ _ _ => rfl, fun _ _ _ => rfl, fun _ _ _ => rfl⟩
      (execPerson benchPool ⟨"select Person"⟩) rfl [demoId] [demoId2] demoId
      World.init World.init
      [(13, "first")]
      (.person benchPool ⟨"select Person"⟩
        ⟨[("id", ⟨36⟩)], Person.mk UUID.zero "first" "" "" [] [], 1, 13, none, "first"⟩)
      ⟨14, 1, structuredTrace "select Person" [("id", ⟨36⟩)] demoId⟩ rfl
      [(13, "other")]
      (.person benchPool ⟨"select Person"⟩
        ⟨[("id", ⟨36⟩)], Person.mk UUID.zero "other" "" "" [] [], 1, 13, none, "other"⟩)
      ⟨14, 1, structuredTrace "select Person" [("id", ⟨36⟩)] demoId2⟩ rfl rfl).2.2.2.2.2⟩

end EdgedbBench
